import Mathlib

/-!
Verification development for the github-developer-metrics-dashboard core:
a shallow embedding of `backend/refresh_manager.py`,
`backend/metrics_calculator.py` and `backend/ml_analyzer.py`, with theorems
settling the frozen specification claims.

Modelling conventions:
  - wall-clock instants are natural numbers (seconds); the Python code
    compares real-valued differences `now - t < W`, which for our
    nonnegative instants is rendered as `now < t + W`;
  - Python dictionaries keyed by strings become functions
    `String → Option v`; absent key = `none`;
  - machine floats become exact rationals `ℚ`; `round(x, k)` becomes
    rounding of `10^k * x` to the nearest integer (Python uses
    round-half-even on binary floats, which agrees away from ties;
    no tie values occur in the concrete inputs used below);
  - calls into external collaborators (database, GitHub API, sklearn)
    are oracle parameters: the embedding quantifies over their outcomes,
    including the raising of exceptions (`Except`).
-/

namespace GHMetrics

/-! ### Embedding of backend/refresh_manager.py (class MetricsRefreshManager) -/

/-- Abstract metrics payload handed around by the refresh manager; its
internal structure is irrelevant to the orchestration logic. -/
abbrev Payload := Nat

/-- Class constant RATE_LIMIT_WINDOW = 3600 (seconds). -/
def RATE_LIMIT_WINDOW : Nat := 3600

/-- Class constant MAX_REQUESTS_PER_HOUR = 4000. -/
def MAX_REQUESTS_PER_HOUR : Nat := 4000

/-- Class constant CACHE_MAX_AGE_MINUTES = 15. -/
def CACHE_MAX_AGE_MINUTES : Nat := 15

/-- A queued deferred refresh task (the dict put on priority_queue). -/
structure RTask where
  email : String
  scope : String
  time : Nat
deriving Repr, DecidableEq

/-- Mutable state of a MetricsRefreshManager instance: cache, cache
timestamps, in-progress lock map, rate-limiter sliding window and the
priority queue of deferred tasks. -/
structure MgrState where
  cache : String → Option Payload
  cacheTs : String → Option Nat
  locks : String → Option Nat
  reqTs : List Nat
  queue : List RTask

/-- Point update of a string-keyed map. -/
def mapUpd (f : String → Option α) (key : String) (v : Option α) : String → Option α :=
  fun k => if k = key then v else f k

/-- should_refresh: no timestamp recorded, or age above the max age
(15 minutes, in seconds here). -/
def shouldRefresh (st : MgrState) (key : String) (now : Nat) : Bool :=
  match st.cacheTs key with
  | none => true
  | some ts => decide (now - ts > CACHE_MAX_AGE_MINUTES * 60)

/-- get_cached_metrics: the cached payload when present and fresh. -/
def getCachedMetrics (st : MgrState) (key : String) (now : Nat) : Option Payload :=
  match st.cache key with
  | some m => if shouldRefresh st key now then none else some m
  | none => none

/-- cache_metrics: store payload and stamp the write time. -/
def cacheMetrics (st : MgrState) (key : String) (m : Payload) (now : Nat) : MgrState :=
  { st with cache := mapUpd st.cache key (some m),
            cacheTs := mapUpd st.cacheTs key (some now) }

/-- The sliding-window retention predicate of check_rate_limit:
`now - t < RATE_LIMIT_WINDOW` over the reals, i.e. `now < t + 3600`. -/
def wWin (now t : Nat) : Bool := decide (now < t + RATE_LIMIT_WINDOW)

/-- check_rate_limit: drop window-expired timestamps, allow the request
iff fewer than MAX_REQUESTS_PER_HOUR remain, and record the current time
when allowing. Returns (can_make_request, new timestamp list). -/
def checkRateLimit (now : Nat) (ts : List Nat) : Bool × List Nat :=
  let kept := ts.filter (wWin now)
  if kept.length < MAX_REQUESTS_PER_HOUR then (true, kept ++ [now]) else (false, kept)

/-- The structured result dict of refresh_user_metrics. -/
structure RResult where
  success : Bool
  error : Option String := none
  metrics : Option Payload := none
  source : Option String := none
  queued : Bool := false
deriving Repr, DecidableEq

/-- Outcome of the internal _refresh_global / _refresh_tracked helpers;
both catch their own exceptions and return a result dict. -/
inductive SubResult where
  | ok (m : Payload)
  | fail (e : String)
deriving Repr, DecidableEq

/-- Oracle for the external collaborators touched inside the try block of
refresh_user_metrics; `Except.error` models a raised exception, which the
enclosing handler catches. -/
structure RefreshEnv where
  ensureUser : Except String (Option String)
  refreshGlobal : SubResult
  refreshTracked : SubResult
  saveMetrics : Except String Bool

/-- The body of the try block of refresh_user_metrics, entered with the
lock already acquired (state st1): rate-limit check and queueing, user
lookup, scope dispatch, caching and persistence of a successful result.
Exceptions from collaborators surface as the caught-exception result. -/
def tryBody (env : RefreshEnv) (st1 : MgrState) (email scope : String)
    (now : Nat) (key : String) : RResult × MgrState :=
  let rl := checkRateLimit now st1.reqTs
  let st2 : MgrState := { st1 with reqTs := rl.2 }
  if rl.1 = false then
    ({ success := false, error := some "rate_limited", queued := true },
     { st2 with queue := st2.queue ++ [⟨email, scope, now⟩] })
  else
    match env.ensureUser with
    | .error e => ({ success := false, error := some e }, st2)
    | .ok none => ({ success := false, error := some "user_not_found" }, st2)
    | .ok (some _uid) =>
      let sub : Option SubResult :=
        if scope = "global" then some env.refreshGlobal
        else if scope = "tracked" then some env.refreshTracked
        else none
      match sub with
      | none => ({ success := false, error := some "invalid_scope" }, st2)
      | some (.fail e) => ({ success := false, error := some e }, st2)
      | some (.ok m) =>
        let st3 := cacheMetrics st2 key m now
        match env.saveMetrics with
        | .error e => ({ success := false, error := some e }, st3)
        | .ok _ => ({ success := true, metrics := some m }, st3)

/-- refresh_user_metrics: cache short-circuit, in-progress lock check,
lock acquisition, try body, and the finally clause releasing the lock on
every exit path that acquired it. -/
def refreshUserMetrics (env : RefreshEnv) (st : MgrState) (email scope : String)
    (force : Bool) (now : Nat) : RResult × MgrState :=
  let key := "user_metrics_" ++ email ++ "_" ++ scope
  let cached : Option Payload := if force then none else getCachedMetrics st key now
  match cached with
  | some m => ({ success := true, metrics := some m, source := some "cache" }, st)
  | none =>
    match st.locks key with
    | some _ => ({ success := false, error := some "refresh_in_progress" }, st)
    | none =>
      let st1 : MgrState := { st with locks := mapUpd st.locks key (some now) }
      let r := tryBody env st1 email scope now key
      (r.1, { r.2 with locks := mapUpd r.2.locks key none })

/-- A run of successive check_rate_limit calls at given instants from a
given window state; returns the list of (instant, decision) pairs and the
final window state. -/
def rlRun : List Nat → List Nat → List (Nat × Bool) × List Nat
  | [], st => ([], st)
  | t :: rest, st =>
    let c := checkRateLimit t st
    let r := rlRun rest c.2
    ((t, c.1) :: r.1, r.2)

/-- Membership of an instant in the one-hour window ending at T + 3600. -/
def inWb (T x : Nat) : Bool := decide (T < x ∧ x ≤ T + RATE_LIMIT_WINDOW)

/-! ### Claim C1: per-key mutual exclusion in refresh_user_metrics -/

/-- C1 counterexample. The claim as stated says a call made while the
in-progress marker is set returns success false with error
refresh_in_progress. The code checks the cache before the lock, so a
non-forced call that hits a fresh cache entry returns the cached payload
with success true even though the marker is set. Concrete input: key
locked, cache written 100 s ago (fresh), force = false. -/
theorem C1_busy_refresh_counterexample :
    let key := "user_metrics_a_global"
    let st : MgrState :=
      { cache := mapUpd (fun _ => none) key (some 7),
        cacheTs := mapUpd (fun _ => none) key (some 100),
        locks := mapUpd (fun _ => none) key (some 100),
        reqTs := [], queue := [] }
    let env : RefreshEnv :=
      { ensureUser := .ok (some "u"), refreshGlobal := .ok 9,
        refreshTracked := .ok 9, saveMetrics := .ok true }
    (st.locks key).isSome = true ∧
      (refreshUserMetrics env st "a" "global" false 200).1
        = { success := true, metrics := some 7, source := some "cache" } := by
  constructor
  · rfl
  · rfl

/-- C1 (amended): if the in-progress marker for the key is set and the
call is not served from the cache (forced, or no fresh cache entry), the
call returns success false with error refresh_in_progress and leaves the
entire manager state unchanged; and whenever the marker is not set at
entry, it is not set after the call returns, on every exit path of the
try block (rate-limited early return, user not found, invalid scope,
sub-refresh success or failure, and caught exceptions), for every
collaborator outcome. -/
theorem C1_refresh_mutual_exclusion (env : RefreshEnv) (st : MgrState)
    (email scope : String) (force : Bool) (now : Nat) :
    (((st.locks ("user_metrics_" ++ email ++ "_" ++ scope)).isSome = true) →
      (force = true ∨ getCachedMetrics st ("user_metrics_" ++ email ++ "_" ++ scope) now = none) →
      refreshUserMetrics env st email scope force now
        = ({ success := false, error := some "refresh_in_progress" }, st)) ∧
    ((st.locks ("user_metrics_" ++ email ++ "_" ++ scope) = none) →
      (refreshUserMetrics env st email scope force now).2.locks
        ("user_metrics_" ++ email ++ "_" ++ scope) = none) := by
  constructor
  · intro hlock hmiss
    have hc : (if force then none else
        getCachedMetrics st ("user_metrics_" ++ email ++ "_" ++ scope) now)
        = (none : Option Payload) := by
      rcases hmiss with h | h
      · simp [h]
      · cases force <;> simp [h]
    cases hl : st.locks ("user_metrics_" ++ email ++ "_" ++ scope) with
    | none => rw [hl] at hlock; simp at hlock
    | some v => simp only [refreshUserMetrics, hc, hl]
  · intro hfree
    simp only [refreshUserMetrics]
    cases hcache : (if force = true then none else
        getCachedMetrics st ("user_metrics_" ++ email ++ "_" ++ scope) now) with
    | some m => simp only [hcache]; exact hfree
    | none => simp [hcache, hfree, mapUpd]

/-- Witness for C1_refresh_mutual_exclusion: both hypotheses discharged
at concrete inputs. The busy branch uses a locked key with force = true;
the free branch uses an unlocked empty state. -/
theorem C1_refresh_mutual_exclusion_witness :
    (let st : MgrState :=
      { cache := fun _ => none, cacheTs := fun _ => none,
        locks := mapUpd (fun _ => none) "user_metrics_a_global" (some 5),
        reqTs := [], queue := [] }
     let env : RefreshEnv :=
      { ensureUser := .ok (some "u"), refreshGlobal := .ok 9,
        refreshTracked := .ok 9, saveMetrics := .ok true }
     refreshUserMetrics env st "a" "global" true 200
        = ({ success := false, error := some "refresh_in_progress" }, st)) ∧
    (let st0 : MgrState :=
      { cache := fun _ => none, cacheTs := fun _ => none,
        locks := fun _ => none, reqTs := [], queue := [] }
     let env : RefreshEnv :=
      { ensureUser := .ok (some "u"), refreshGlobal := .ok 9,
        refreshTracked := .ok 9, saveMetrics := .ok true }
     (refreshUserMetrics env st0 "a" "global" true 200).2.locks
        "user_metrics_a_global" = none) := by
  constructor
  · exact (C1_refresh_mutual_exclusion _ _ "a" "global" true 200).1 rfl (Or.inl rfl)
  · exact (C1_refresh_mutual_exclusion _ _ "a" "global" true 200).2 rfl

/-! ### Claim C10: rate-limiter sliding-window invariants -/

/-- Re-filtering a window-filtered list at a later instant equals
filtering the original list at the later instant. -/
theorem filter_wWin_wWin (l : List Nat) {t0 t : Nat} (h : t0 ≤ t) :
    (l.filter (wWin t0)).filter (wWin t) = l.filter (wWin t) := by
  rw [List.filter_filter]
  apply List.filter_congr
  intro x _
  cases hw : wWin t x
  · simp [hw]
  · have h0 : wWin t0 x = true := by
      simp only [wWin, decide_eq_true_eq] at hw ⊢
      omega
    simp [h0, hw]

/-- wWin holds reflexively at the recorded instant. -/
theorem wWin_self (t : Nat) : wWin t t = true := by
  simp [wWin, RATE_LIMIT_WINDOW]

/-- Main induction for the rate-limiter budget: running check_rate_limit
at nondecreasing instants, with the window state determined by the
previously allowed instants prevTrue (all at or before t0), no one-hour
window ever sees more than MAX_REQUESTS_PER_HOUR allowed calls, counting
the previously allowed ones. -/
theorem rlRun_window_aux (calls : List Nat) :
    ∀ (prevTrue : List Nat) (t0 : Nat),
      List.Sorted (· ≤ ·) calls → (∀ t ∈ calls, t0 ≤ t) →
      (∀ x ∈ prevTrue, x ≤ t0) →
      (∀ T, prevTrue.countP (inWb T) ≤ MAX_REQUESTS_PER_HOUR) →
      ∀ T, prevTrue.countP (inWb T) +
        ((rlRun calls (prevTrue.filter (wWin t0))).1.countP
          (fun p => p.2 && inWb T p.1)) ≤ MAX_REQUESTS_PER_HOUR := by
  induction calls with
  | nil =>
    intro prevTrue t0 _ _ _ hcnt T
    simpa [rlRun] using hcnt T
  | cons t rest ih =>
    intro prevTrue t0 hs hge hpt hcnt T
    have ht0t : t0 ≤ t := hge t (List.mem_cons_self _ _)
    have hkept : (prevTrue.filter (wWin t0)).filter (wWin t)
        = prevTrue.filter (wWin t) := filter_wWin_wWin _ ht0t
    have hrest : List.Sorted (· ≤ ·) rest := (List.sorted_cons.mp hs).2
    have hge2 : ∀ x ∈ rest, t ≤ x := (List.sorted_cons.mp hs).1
    by_cases hlen : (prevTrue.filter (wWin t)).length < MAX_REQUESTS_PER_HOUR
    · -- call allowed: t joins the window
      have hstep : checkRateLimit t (prevTrue.filter (wWin t0))
          = (true, prevTrue.filter (wWin t) ++ [t]) := by
        simp only [checkRateLimit, hkept]
        rw [if_pos hlen]
      have hstate : prevTrue.filter (wWin t) ++ [t]
          = (prevTrue ++ [t]).filter (wWin t) := by
        rw [List.filter_append]
        simp [wWin_self]
      have hpt2 : ∀ x ∈ prevTrue ++ [t], x ≤ t := by
        intro x hx
        rcases List.mem_append.mp hx with hx | hx
        · exact le_trans (hpt x hx) ht0t
        · simp only [List.mem_singleton] at hx
          omega
      have hcnt2 : ∀ T2, (prevTrue ++ [t]).countP (inWb T2) ≤ MAX_REQUESTS_PER_HOUR := by
        intro T2
        rw [List.countP_append]
        by_cases hw : inWb T2 t = true
        · have hmono : prevTrue.countP (inWb T2) ≤ prevTrue.countP (wWin t) := by
            apply List.countP_mono_left
            intro x _ hpx
            simp only [inWb, decide_eq_true_eq] at hw hpx
            simp only [wWin, decide_eq_true_eq]
            omega
          have hflt : prevTrue.countP (wWin t) < MAX_REQUESTS_PER_HOUR := by
            rw [List.countP_eq_length_filter]
            exact hlen
          have hone : List.countP (inWb T2) [t] = 1 := by simp [hw]
          omega
        · have hzero : List.countP (inWb T2) [t] = 0 := by
            simp only [Bool.not_eq_true] at hw
            simp [hw]
          have := hcnt T2
          omega
      have hih := ih (prevTrue ++ [t]) t hrest hge2 hpt2 hcnt2 T
      rw [← hstate, List.countP_append] at hih
      have hrun : (rlRun (t :: rest) (prevTrue.filter (wWin t0))).1
          = (t, true) :: (rlRun rest (prevTrue.filter (wWin t) ++ [t])).1 := by
        simp only [rlRun, hstep]
      rw [hrun]
      by_cases hw : inWb T t = true
      · have h1 : List.countP (fun p => p.2 && inWb T p.1)
            ((t, true) :: (rlRun rest (prevTrue.filter (wWin t) ++ [t])).1)
            = List.countP (fun p => p.2 && inWb T p.1)
                (rlRun rest (prevTrue.filter (wWin t) ++ [t])).1 + 1 := by
          simp [List.countP_cons, hw]
        have h2 : List.countP (inWb T) [t] = 1 := by simp [hw]
        omega
      · have hwf : inWb T t = false := by
          simp only [Bool.not_eq_true] at hw
          exact hw
        have h1 : List.countP (fun p => p.2 && inWb T p.1)
            ((t, true) :: (rlRun rest (prevTrue.filter (wWin t) ++ [t])).1)
            = List.countP (fun p => p.2 && inWb T p.1)
                (rlRun rest (prevTrue.filter (wWin t) ++ [t])).1 := by
          simp [List.countP_cons, hwf]
        have h2 : List.countP (inWb T) [t] = 0 := by simp [hwf]
        omega
    · -- call rejected: window state only shrinks
      have hstep : checkRateLimit t (prevTrue.filter (wWin t0))
          = (false, prevTrue.filter (wWin t)) := by
        simp only [checkRateLimit, hkept]
        rw [if_neg hlen]
      have hpt2 : ∀ x ∈ prevTrue, x ≤ t := fun x hx => le_trans (hpt x hx) ht0t
      have hih := ih prevTrue t hrest hge2 hpt2 hcnt T
      have hrun : (rlRun (t :: rest) (prevTrue.filter (wWin t0))).1
          = (t, false) :: (rlRun rest (prevTrue.filter (wWin t))).1 := by
        simp only [rlRun, hstep]
      rw [hrun]
      have h1 : List.countP (fun p => p.2 && inWb T p.1)
          ((t, false) :: (rlRun rest (prevTrue.filter (wWin t))).1)
          = List.countP (fun p => p.2 && inWb T p.1)
              (rlRun rest (prevTrue.filter (wWin t))).1 := by
        simp [List.countP_cons]
      omega

/-- C10: (1) whenever a refresh call reaches the rate-limit check and the
check allows it, the call instant is recorded in the sliding window in
the post-call state, for every collaborator outcome, including failing
and exception paths of the refresh; (2) over any run of check_rate_limit
calls at nondecreasing instants from an empty window, any one-hour window
(T, T + 3600] contains at most MAX_REQUESTS_PER_HOUR allowed calls; (3)
after any check_rate_limit call, every retained timestamp is less than
one hour old. -/
theorem C10_rate_limit_invariants :
    (∀ (env : RefreshEnv) (st : MgrState) (email scope : String) (now : Nat),
      st.locks ("user_metrics_" ++ email ++ "_" ++ scope) = none →
      (checkRateLimit now st.reqTs).1 = true →
      now ∈ (refreshUserMetrics env st email scope true now).2.reqTs) ∧
    (∀ calls : List Nat, List.Sorted (· ≤ ·) calls →
      ∀ T, ((rlRun calls []).1.countP (fun p => p.2 && inWb T p.1))
        ≤ MAX_REQUESTS_PER_HOUR) ∧
    (∀ (now : Nat) (ts : List Nat) (t : Nat),
      t ∈ (checkRateLimit now ts).2 → now < t + RATE_LIMIT_WINDOW) := by
  refine ⟨?_, ?_, ?_⟩
  · intro env st email scope now hfree hok
    have hlen : (st.reqTs.filter (wWin now)).length < MAX_REQUESTS_PER_HOUR := by
      by_contra hlen
      simp [checkRateLimit, hlen] at hok
    have hmem : now ∈ st.reqTs.filter (wWin now) ++ [now] := by
      simp
    rcases env with ⟨eu, rg, rt, sm⟩
    simp only [refreshUserMetrics, if_true, hfree]
    simp only [tryBody, checkRateLimit, hlen, if_pos]
    cases eu with
    | error e => simpa using hmem
    | ok uopt =>
      cases uopt with
      | none => simpa using hmem
      | some uid =>
        by_cases hg : scope = "global"
        · cases rg with
          | ok m =>
            cases sm with
            | error e => simp only [hg]; simpa [cacheMetrics] using hmem
            | ok b => simp only [hg]; simpa [cacheMetrics] using hmem
          | fail e => simp only [hg]; simpa using hmem
        · by_cases ht : scope = "tracked"
          · cases rt with
            | ok m =>
              cases sm with
              | error e => simp only [hg, ht]; simpa [cacheMetrics] using hmem
              | ok b => simp only [hg, ht]; simpa [cacheMetrics] using hmem
            | fail e => simp only [hg, ht]; simpa using hmem
          · simp only [hg, ht]; simpa using hmem
  · intro calls hs T
    have := rlRun_window_aux calls [] 0 hs (fun t _ => Nat.zero_le t)
      (by intro x hx; simp at hx) (by intro T2; simp) T
    simpa using this
  · intro now ts t ht
    by_cases hlen : (ts.filter (wWin now)).length < MAX_REQUESTS_PER_HOUR
    · simp only [checkRateLimit, hlen, if_pos] at ht
      rcases List.mem_append.mp ht with h | h
      · have := (List.mem_filter.mp h).2
        simpa [wWin] using this
      · simp only [List.mem_singleton] at h
        subst h
        simp [RATE_LIMIT_WINDOW]
    · simp only [checkRateLimit, hlen, if_neg, if_false] at ht
      have := (List.mem_filter.mp ht).2
      simpa [wWin] using this

/-- Witness for C10_rate_limit_invariants: each conjunct applied at a
concrete input, discharging its hypotheses there. -/
theorem C10_rate_limit_invariants_witness :
    (50 ∈ (refreshUserMetrics
        ⟨.ok (some "u"), .ok 9, .ok 9, .ok true⟩
        ⟨fun _ => none, fun _ => none, fun _ => none, [], []⟩
        "a" "global" true 50).2.reqTs) ∧
    (((rlRun [1, 2, 3] []).1.countP (fun p => p.2 && inWb 0 p.1))
        ≤ MAX_REQUESTS_PER_HOUR) ∧
    (10 < 5 + RATE_LIMIT_WINDOW) := by
  refine ⟨?_, ?_, ?_⟩
  · exact C10_rate_limit_invariants.1 _ _ "a" "global" 50 rfl (by decide)
  · exact C10_rate_limit_invariants.2.1 [1, 2, 3] (by decide) 0
  · exact C10_rate_limit_invariants.2.2 10 [5] 5 (by decide)

/-! ### Embedding of backend/metrics_calculator.py (EnhancedMetricsCalculator)

Timestamps are integers (seconds). A date string is abstracted to either
a parseable value or an unparsable one; string-level parsing formats are
external to the logic under verification. Record fields that the Python
code reads with a KeyError-raising subscript are `Option`-valued: `none`
models the missing key. -/

/-- A date field value: parseable to an instant, or unparsable. -/
inductive DateVal where
  | valid (t : ℤ)
  | invalid
deriving Repr, DecidableEq

/-- _parse_date: a parseable string yields its instant; on total parse
failure the code logs a warning and returns datetime.now(), so the record
is processed with the current wall-clock time, not skipped. -/
def parseDate (now : ℤ) : DateVal → ℤ
  | .valid t => t
  | .invalid => now

/-- A review node: submittedAt (may be absent) and author login. -/
structure Review where
  submittedAt : Option DateVal
  author : Option String
deriving Repr, DecidableEq

/-- A pull-request record. commitDates are the committedDate fields of
the PR commit nodes (none = missing field on that node). -/
structure PR where
  number : ℕ
  title : String
  body : String
  createdAt : Option DateVal
  mergedAt : Option DateVal
  additions : ℕ
  deletions : ℕ
  commitDates : List (Option DateVal)
  reviews : List Review
  author : Option String
deriving Repr, DecidableEq

/-- A commit record. -/
structure Commit where
  committedDate : Option DateVal
  additions : ℕ
  deletions : ℕ
  changedFiles : ℕ
  message : String
deriving Repr, DecidableEq

/-- _average: float(np.mean(values)) if values else 0.0. -/
def average (l : List ℚ) : ℚ := if l = [] then 0 else l.sum / l.length

/-- Insertion step of a stable insertion sort (le is the Bool order). -/
def insertLe (le : α → α → Bool) (a : α) : List α → List α
  | [] => [a]
  | b :: l => if le a b then a :: b :: l else b :: insertLe le a l

/-- Stable insertion sort: the model for the stable Python sorted(). -/
def sortLe (le : α → α → Bool) : List α → List α
  | [] => []
  | a :: l => insertLe le a (sortLe le l)

/-- _percentile: np.percentile with linear interpolation on the sorted
values (virtual index p(n-1)/100), or 0.0 on empty input. -/
def percentile (l : List ℚ) (p : ℚ) : ℚ :=
  match sortLe (fun a b => decide (a ≤ b)) l with
  | [] => 0
  | s =>
    let n := s.length
    let h : ℚ := p * ((n : ℚ) - 1) / 100
    let i : ℕ := (Int.floor h).toNat
    let lo := s.getD i 0
    let hi := s.getD (min (i + 1) (n - 1)) 0
    lo + (h - (i : ℚ)) * (hi - lo)

/-- Python round(x, k): round to k decimal places (round-half-even on
floats; modelled as nearest-integer rounding of 10^k x, which agrees
except at exact ties, none of which occur in the inputs used here). -/
def roundTo (k : ℕ) (x : ℚ) : ℚ := ((round (x * (10 : ℚ) ^ k) : ℤ) : ℚ) / (10 : ℚ) ^ k

/-- The lead-time breakdown dict of _calculate_detailed_lead_time. -/
structure LeadTime where
  total_lead_time_sec : ℚ
  total_lead_time_hours : ℚ
  code_time_sec : ℚ
  code_time_hours : ℚ
  review_time_sec : ℚ
  review_time_hours : ℚ
  merge_time_sec : ℚ
  merge_time_hours : ℚ
  p50_lead_time_hours : ℚ
  p90_lead_time_hours : ℚ
  p95_lead_time_hours : ℚ
deriving Repr, DecidableEq

/-- The values one PR appends to the four duration lists. -/
structure LeadContrib where
  lead : List ℚ
  code : List ℚ
  review : List ℚ
  merge : List ℚ
deriving Repr, DecidableEq

/-- Loop body of _calculate_detailed_lead_time for one PR: skip unmerged
PRs; a missing createdAt key raises KeyError, caught by the per-PR
handler (record skipped); PRs without commit dates contribute nothing;
each duration is kept only when nonnegative. -/
def prLeadContrib (now : ℤ) (pr : PR) : LeadContrib :=
  match pr.mergedAt with
  | none => ⟨[], [], [], []⟩
  | some mDV =>
    match pr.createdAt with
    | none => ⟨[], [], [], []⟩
    | some cDV =>
      let created := parseDate now cDV
      let merged := parseDate now mDV
      match (pr.commitDates.filterMap id).map (parseDate now) with
      | [] => ⟨[], [], [], []⟩
      | d :: ds =>
        let firstCommit := ds.foldl min d
        let codeTime : ℚ := ((created - firstCommit : ℤ) : ℚ)
        let codeL := if 0 ≤ codeTime then [codeTime] else []
        let totalTime : ℚ := ((merged - firstCommit : ℤ) : ℚ)
        let leadL := if 0 ≤ totalTime then [totalTime] else []
        match (pr.reviews.filterMap (fun rv => rv.submittedAt)).map (parseDate now) with
        | [] => ⟨leadL, codeL, [], []⟩
        | r :: rs =>
          let firstReview := rs.foldl min r
          let lastReview := rs.foldl max r
          let reviewTime : ℚ := ((firstReview - created : ℤ) : ℚ)
          let reviewL := if 0 ≤ reviewTime then [reviewTime] else []
          let mergeTime : ℚ := ((merged - lastReview : ℤ) : ℚ)
          let mergeL := if 0 ≤ mergeTime then [mergeTime] else []
          ⟨leadL, codeL, reviewL, mergeL⟩

/-- The four accumulated duration lists across a PR list, in loop order. -/
def leadLists (now : ℤ) (prs : List PR) : LeadContrib :=
  let cs := prs.map (prLeadContrib now)
  ⟨(cs.map (·.lead)).join, (cs.map (·.code)).join,
   (cs.map (·.review)).join, (cs.map (·.merge)).join⟩

/-- _calculate_detailed_lead_time: averages and percentiles of the four
duration lists. -/
def detailedLeadTime (now : ℤ) (prs : List PR) : LeadTime :=
  let c := leadLists now prs
  { total_lead_time_sec := average c.lead,
    total_lead_time_hours := if c.lead = [] then 0 else average c.lead / 3600,
    code_time_sec := average c.code,
    code_time_hours := if c.code = [] then 0 else average c.code / 3600,
    review_time_sec := average c.review,
    review_time_hours := if c.review = [] then 0 else average c.review / 3600,
    merge_time_sec := average c.merge,
    merge_time_hours := if c.merge = [] then 0 else average c.merge / 3600,
    p50_lead_time_hours := if c.lead = [] then 0 else percentile c.lead 50 / 3600,
    p90_lead_time_hours := if c.lead = [] then 0 else percentile c.lead 90 / 3600,
    p95_lead_time_hours := if c.lead = [] then 0 else percentile c.lead 95 / 3600 }

/-- Lowercasing of a Python string via str.lower(). -/
def lowerStr (s : String) : String := String.mk (s.toList.map Char.toLower)

/-- Substring containment on character lists (Python `in` on str). -/
def subOf : List Char → List Char → Bool
  | needle, [] => needle.isEmpty
  | needle, c :: rest => needle.isPrefixOf (c :: rest) || subOf needle rest

/-- `needle in hay` for strings. -/
def strContains (hay needle : String) : Bool := subOf needle.toList hay.toList

/-- The four failure categories of _calculate_enhanced_failure_rate, in
dict insertion order (the iteration order of the classification loop). -/
inductive FailCat where
  | revert | hotfix | bugfix | patch
deriving Repr, DecidableEq

/-- failure_indicators keyword lists. -/
def failureKeywords : FailCat → List String
  | .revert => ["revert", "rollback", "undo"]
  | .hotfix => ["hotfix", "emergency", "urgent", "critical"]
  | .bugfix => ["fix", "bug", "issue", "broken", "error"]
  | .patch => ["patch", "quick fix", "band-aid"]

/-- Category priority order = dict insertion order of failure_indicators. -/
def catOrder : List FailCat := [.revert, .hotfix, .bugfix, .patch]

/-- A keyword hit against the lowercased title or body of a PR. -/
def kwHit (pr : PR) (kw : String) : Bool :=
  strContains (lowerStr pr.title) kw || strContains (lowerStr pr.body) kw

/-- Whether any keyword of the category matches the PR title or body. -/
def catMatches (pr : PR) (c : FailCat) : Bool := (failureKeywords c).any (kwHit pr)

/-- Classification loop body: unmerged PRs are skipped; the first
matching category in priority order wins (break), else no category. -/
def classifyPR (pr : PR) : Option FailCat :=
  if pr.mergedAt.isNone then none else catOrder.find? (catMatches pr)

/-- The change_failure_rate result dict. failure_types is the count per
category (a category absent from the Python dict has count 0); the three
Option fields are absent from the empty-input early-return dict. -/
structure FailureRate where
  percentage : ℚ
  failure_types : FailCat → ℕ
  hotfix_count : ℕ
  failed_prs : Option (List ℕ)
  total_failures : Option ℕ
  total_prs : Option ℕ

/-- Fold step of the classification loop: accumulate per-category counts,
the total, and the failed-PR numbers in order. -/
def failStep (acc : (FailCat → ℕ) × ℕ × List ℕ) (pr : PR) : (FailCat → ℕ) × ℕ × List ℕ :=
  match classifyPR pr with
  | none => acc
  | some c => (fun c2 => if c2 = c then acc.1 c2 + 1 else acc.1 c2, acc.2.1 + 1, acc.2.2 ++ [pr.number])

/-- _calculate_enhanced_failure_rate: early zero dict on an empty PR
list; otherwise classify each merged PR, scan the last 50 commit messages
for hotfix keywords, and divide the classified count by the length of the
whole PR list. -/
def enhancedFailureRate (prs : List PR) (commits : List Commit) : FailureRate :=
  if prs = [] then
    { percentage := 0, failure_types := fun _ => 0, hotfix_count := 0,
      failed_prs := none, total_failures := none, total_prs := none }
  else
    let z := prs.foldl failStep (fun _ => 0, 0, [])
    let hotfixCommits := (commits.drop (commits.length - 50)).countP
      (fun cm => (failureKeywords .hotfix).any (fun kw => strContains (lowerStr cm.message) kw))
    let rate : ℚ := ((z.2.1 : ℚ) / (prs.length : ℚ)) * 100
    { percentage := roundTo 2 rate, failure_types := z.1, hotfix_count := hotfixCommits,
      failed_prs := some z.2.2, total_failures := some z.2.1, total_prs := some prs.length }

/-- Calendar functions of the datetime library, abstracted: ISO week key
(strftime %Y-W%U, as an order-preserving numeric key), day key, weekday,
hour, and calendar-day ordinal. -/
structure DateFns where
  weekOf : ℤ → ℕ
  dayOf : ℤ → ℕ
  weekdayOf : ℤ → ℕ
  hourOf : ℤ → ℕ
  dateOf : ℤ → ℤ

/-- Counting dict build (defaultdict(int) increments), keeping keys in
first-encounter order. -/
def bumpKey [BEq κ] : List (κ × ℕ) → κ → List (κ × ℕ)
  | [], k => [(k, 1)]
  | (k0, c) :: rest, k =>
    if k0 == k then (k0, c + 1) :: rest else (k0, c) :: bumpKey rest k

/-- Group a key list into (key, count) pairs in first-encounter order. -/
def groupCounts [BEq κ] (ks : List κ) : List (κ × ℕ) := ks.foldl bumpKey []

/-- defaultdict-style lookup with default 0. -/
def lookupC [BEq κ] (l : List (κ × ℕ)) (k : κ) : ℕ :=
  ((l.find? (fun p => p.1 == k)).map (fun p => p.2)).getD 0

/-- The deployment_frequency result dict; daily_trend, trend_direction
and total_deployments are absent from the empty-input early return. -/
structure DeployFreq where
  per_week : ℚ
  per_day : ℚ
  weekly_trend : List (ℕ × ℕ)
  daily_trend : Option (List (ℕ × ℕ))
  trend_direction : Option String
  total_deployments : Option ℕ
deriving Repr, DecidableEq

/-- _calculate_deployment_frequency: group merged PRs by week and day,
average per group, and label the trend by comparing the mean of the last
4 weeks against the prior 4 weeks at the 1.2 / 0.8 thresholds (needs at
least 8 weeks, else stable). -/
def deploymentFrequency (fns : DateFns) (now : ℤ) (prs : List PR) : DeployFreq :=
  if prs = [] then
    { per_week := 0, per_day := 0, weekly_trend := [],
      daily_trend := none, trend_direction := none, total_deployments := none }
  else
    let mergedDates := (prs.filterMap (fun pr => pr.mergedAt)).map (parseDate now)
    let weekly := groupCounts (mergedDates.map fns.weekOf)
    let daily := groupCounts (mergedDates.map fns.dayOf)
    let avgW : ℚ := if weekly = [] then 0 else ((weekly.map (fun p => p.2)).sum : ℚ) / (weekly.length : ℚ)
    let avgD : ℚ := if daily = [] then 0 else ((daily.map (fun p => p.2)).sum : ℚ) / (daily.length : ℚ)
    let sortedWeeks := sortLe (fun a b => decide (a ≤ b)) (weekly.map (fun p => p.1))
    let trend :=
      if 8 ≤ sortedWeeks.length then
        let recent := sortedWeeks.drop (sortedWeeks.length - 4)
        let previous := (sortedWeeks.drop (sortedWeeks.length - 8)).take 4
        let recentAvg : ℚ := ((recent.map (lookupC weekly)).sum : ℚ) / 4
        let previousAvg : ℚ := ((previous.map (lookupC weekly)).sum : ℚ) / 4
        if recentAvg > previousAvg * (12 / 10) then "increasing"
        else if recentAvg < previousAvg * (8 / 10) then "decreasing"
        else "stable"
      else "stable"
    { per_week := roundTo 2 avgW, per_day := roundTo 2 avgD,
      weekly_trend := weekly, daily_trend := some daily,
      trend_direction := some trend,
      total_deployments := some (prs.countP (fun pr => pr.mergedAt.isSome)) }

/-- The mttr result dict. -/
structure MTTRRes where
  mttr_sec : ℚ
  mttr_hours : ℚ
  mttr_days : ℚ
  recovery_incidents : ℕ
  p50_mttr_hours : ℚ
  p90_mttr_hours : ℚ
deriving Repr, DecidableEq

/-- MTTR failure keywords. -/
def mttrKeywords : List String := ["bug", "fix", "issue", "broken", "error", "hotfix"]

/-- _calculate_mttr: sort merged PRs by merge time (stable); whenever a
PR title contains a failure keyword, the previous merge is taken as the
incident start; keep positive recovery times. -/
def calculateMTTR (now : ℤ) (prs : List PR) : MTTRRes :=
  let merged := prs.filter (fun pr => pr.mergedAt.isSome)
  let mTime := fun (pr : PR) => parseDate now (pr.mergedAt.getD .invalid)
  let sortedPRs := sortLe (fun a b => decide (mTime a ≤ mTime b)) merged
  let recoveryTimes := (sortedPRs.zip sortedPRs.tail).filterMap (fun p =>
    if mttrKeywords.any (fun kw => strContains (lowerStr p.2.title) kw) then
      let rt : ℚ := ((mTime p.2 - mTime p.1 : ℤ) : ℚ)
      if 0 < rt then some rt else none
    else none)
  let avg : ℚ := if recoveryTimes = [] then 0 else average recoveryTimes
  { mttr_sec := avg,
    mttr_hours := if avg = 0 then 0 else avg / 3600,
    mttr_days := if avg = 0 then 0 else avg / 86400,
    recovery_incidents := recoveryTimes.length,
    p50_mttr_hours := if recoveryTimes = [] then 0 else percentile recoveryTimes 50 / 3600,
    p90_mttr_hours := if recoveryTimes = [] then 0 else percentile recoveryTimes 90 / 3600 }

/-- The code-quality result dict (commit_size_distribution inlined). -/
structure CodeQuality where
  avg_commit_size : ℚ
  avg_pr_size : ℚ
  large_commits_percentage : ℚ
  large_prs_percentage : ℚ
  review_coverage_percentage : ℚ
  avg_files_per_commit : ℚ
  dist_small : ℕ
  dist_medium : ℕ
  dist_large : ℕ
deriving Repr, DecidableEq

/-- calculate_code_quality_metrics. -/
def codeQuality (commits : List Commit) (prs : List PR) : CodeQuality :=
  let commitSizes := commits.map (fun c => c.additions + c.deletions)
  let largeCommits := commitSizes.countP (fun s => decide (s > 500))
  let prSizes := prs.map (fun p => p.additions + p.deletions)
  let largePRs := prSizes.countP (fun s => decide (s > 1000))
  let reviewedPRs := prs.countP (fun p => decide (p.reviews ≠ []))
  let reviewCoverage : ℚ :=
    if prs = [] then 0 else ((reviewedPRs : ℚ) / (prs.length : ℚ)) * 100
  { avg_commit_size := average (commitSizes.map (fun n => (n : ℚ))),
    avg_pr_size := average (prSizes.map (fun n => (n : ℚ))),
    large_commits_percentage :=
      if commits = [] then 0 else ((largeCommits : ℚ) / (commits.length : ℚ)) * 100,
    large_prs_percentage :=
      if prs = [] then 0 else ((largePRs : ℚ) / (prs.length : ℚ)) * 100,
    review_coverage_percentage := roundTo 2 reviewCoverage,
    avg_files_per_commit := average (commits.map (fun c => (c.changedFiles : ℚ))),
    dist_small := commitSizes.countP (fun s => decide (s < 50)),
    dist_medium := commitSizes.countP (fun s => decide (50 ≤ s ∧ s < 200)),
    dist_large := commitSizes.countP (fun s => decide (s ≥ 200)) }

/-- The productivity-patterns result dict (empty dict = none upstream). -/
structure Productivity where
  commits_by_day : List (ℕ × ℕ)
  commits_by_hour : List (ℕ × ℕ)
  weekend_work_percentage : ℚ
  late_night_work_percentage : ℚ
  max_commit_streak : ℕ
  most_productive_day : Option ℕ
  most_productive_hour : Option ℕ
  work_life_balance_score : ℚ
deriving Repr, DecidableEq

/-- Longest run of consecutive calendar days over the sorted distinct
day ordinals (the streak loop). -/
def streakGo : ℤ → ℕ → ℕ → List ℤ → ℕ
  | _, _, mx, [] => mx
  | prev, cur, mx, d :: ds =>
    let cur2 := if d - prev = 1 then cur + 1 else 1
    streakGo d cur2 (max mx cur2) ds

/-- Maximum commit streak over sorted distinct day ordinals. -/
def maxStreak : List ℤ → ℕ
  | [] => 0
  | d :: ds => streakGo d 1 1 ds

/-- Python max(dict, key=dict.get): the first key attaining the maximal
count, in dict insertion order. -/
def argmaxGo : (κ × ℕ) → List (κ × ℕ) → κ
  | best, [] => best.1
  | best, q :: rest => if q.2 > best.2 then argmaxGo q rest else argmaxGo best rest

/-- Argmax over a counting dict; none when empty. -/
def argmaxC : List (κ × ℕ) → Option κ
  | [] => none
  | p :: rest => some (argmaxGo p rest)

/-- calculate_productivity_patterns: empty commit list returns the empty
dict (none); commits with a missing committedDate key raise KeyError in
the loop and are skipped. Percentage denominators use the full commit
list length. -/
def productivityPatterns (fns : DateFns) (now : ℤ) (commits : List Commit) : Option Productivity :=
  if commits = [] then none
  else
    let commitTimes := (commits.filterMap (fun c => c.committedDate)).map (parseDate now)
    let dayCounts := groupCounts (commitTimes.map fns.weekdayOf)
    let hourCounts := groupCounts (commitTimes.map fns.hourOf)
    let commitDays := sortLe (fun a b => decide (a ≤ b)) (commitTimes.map fns.dateOf).eraseDups
    let weekendCommits := lookupC dayCounts 5 + lookupC dayCounts 6
    let weekendPct : ℚ := ((weekendCommits : ℚ) / (commits.length : ℚ)) * 100
    let lateNightCommits := (([22, 23] ++ [0, 1, 2, 3, 4, 5]).map (lookupC hourCounts)).sum
    let lateNightPct : ℚ := ((lateNightCommits : ℚ) / (commits.length : ℚ)) * 100
    some
      { commits_by_day := dayCounts,
        commits_by_hour := hourCounts,
        weekend_work_percentage := roundTo 2 weekendPct,
        late_night_work_percentage := roundTo 2 lateNightPct,
        max_commit_streak := maxStreak commitDays,
        most_productive_day := argmaxC dayCounts,
        most_productive_hour := argmaxC hourCounts,
        work_life_balance_score := max 0 (100 - weekendPct - lateNightPct) }

/-- The collaboration result dict (empty dict = none upstream). -/
structure Collaboration where
  unique_reviewers : ℕ
  unique_authors : ℕ
  avg_review_response_time_hours : ℚ
  total_reviews : ℕ
  reviews_per_pr : ℚ
  top_reviewers : List (String × ℕ)
  collaboration_index : ℕ
deriving Repr, DecidableEq

/-- Reviewer logins of one PR, excluding self-reviews and reviews
without an author login. -/
def prReviewers (pr : PR) : List String :=
  pr.reviews.filterMap (fun rv =>
    match rv.author with
    | none => none
    | some who => if pr.author = some who then none else some who)

/-- Review response times (seconds) of one PR: only for counted
reviewers; a missing createdAt or submittedAt key raises inside the
per-review try and that review is skipped; only positive times kept. -/
def prRespTimes (now : ℤ) (pr : PR) : List ℚ :=
  pr.reviews.filterMap (fun rv =>
    match rv.author with
    | none => none
    | some who =>
      if pr.author = some who then none
      else
        match pr.createdAt, rv.submittedAt with
        | some cDV, some sDV =>
          let rt : ℚ := ((parseDate now sDV - parseDate now cDV : ℤ) : ℚ)
          if 0 < rt then some rt else none
        | _, _ => none)

/-- calculate_collaboration_metrics. -/
def collaborationMetrics (now : ℤ) (prs : List PR) : Option Collaboration :=
  if prs = [] then none
  else
    let reviewers := (prs.map prReviewers).join
    let respTimes := (prs.map (prRespTimes now)).join
    let authors := prs.filterMap (fun pr => pr.author)
    let uniqueReviewers := reviewers.eraseDups.length
    let uniqueAuthors := authors.eraseDups.length
    let reviewerCounts := groupCounts reviewers
    some
      { unique_reviewers := uniqueReviewers,
        unique_authors := uniqueAuthors,
        avg_review_response_time_hours :=
          if respTimes = [] then 0 else average respTimes / 3600,
        total_reviews := reviewers.length,
        reviews_per_pr := (reviewers.length : ℚ) / (prs.length : ℚ),
        top_reviewers :=
          (sortLe (fun a b => decide (b.2 ≤ a.2)) reviewerCounts).take 5,
        collaboration_index := uniqueReviewers * uniqueAuthors }

/-- The metric values get_performance_grade reads from the metrics dict
via nested .get chains with default 0 (so an absent nested dict reads as
0 in every slot). -/
structure GradeInput where
  leadTimeHours : ℚ
  deployPerWeek : ℚ
  failurePct : ℚ
  mttrHours : ℚ
  reviewCoverage : ℚ
  largePRsPct : ℚ
  avgFilesPerCommit : ℚ
  wlb : ℚ
  maxCommitStreak : ℕ
  uniqueReviewers : ℕ
  reviewResponseHours : ℚ
deriving Repr, DecidableEq

/-- Lead-time points against the elite 24 h / high 168 h / medium 720 h
benchmark tiers. -/
def leadTimeScore (h : ℚ) : ℕ :=
  if h ≤ 24 then 10 else if h ≤ 168 then 8 else if h ≤ 720 then 6 else 3

/-- Deployment-frequency points against the 10 / 3 / 1 per-week tiers. -/
def deployFreqScore (w : ℚ) : ℕ :=
  if w ≥ 10 then 10 else if w ≥ 3 then 8 else if w ≥ 1 then 6 else 3

/-- Change-failure-rate points against the 5 / 10 / 15 percent tiers. -/
def failureRateScore (p : ℚ) : ℕ :=
  if p ≤ 5 then 10 else if p ≤ 10 then 8 else if p ≤ 15 then 6 else 3

/-- MTTR points against the 1 h / 24 h / 168 h tiers. -/
def mttrScore (h : ℚ) : ℕ :=
  if h ≤ 1 then 10 else if h ≤ 24 then 8 else if h ≤ 168 then 6 else 3

/-- Review-coverage points (90 / 70 cutoffs). -/
def reviewCoverageScore (c : ℚ) : ℕ := if c ≥ 90 then 10 else if c ≥ 70 then 8 else 5

/-- Large-PR-percentage points (10 / 25 cutoffs). -/
def largePRScore (p : ℚ) : ℕ := if p ≤ 10 then 8 else if p ≤ 25 then 6 else 3

/-- Files-per-commit points (cutoff 5). -/
def filesPerCommitScore (n : ℚ) : ℕ := if n ≤ 5 then 7 else 4

/-- Work-life-balance points (80 / 60 cutoffs). -/
def wlbScore (s : ℚ) : ℕ := if s ≥ 80 then 10 else if s ≥ 60 then 8 else 5

/-- Commit-streak points (7 / 3 cutoffs). -/
def streakScore (n : ℕ) : ℕ := if n ≥ 7 then 10 else if n ≥ 3 then 7 else 4

/-- Unique-reviewer points (5 / 2 cutoffs). -/
def reviewersScore (n : ℕ) : ℕ := if n ≥ 5 then 8 else if n ≥ 2 then 6 else 3

/-- Review-response-time points (24 h / 72 h cutoffs). -/
def responseScore (h : ℚ) : ℕ := if h ≤ 24 then 7 else if h ≤ 72 then 5 else 2

/-- Letter grade from the percentage via the fixed cutoffs. -/
def letterGrade (p : ℚ) : String :=
  if p ≥ 90 then "A+" else if p ≥ 85 then "A" else if p ≥ 80 then "A-"
  else if p ≥ 75 then "B+" else if p ≥ 70 then "B" else if p ≥ 65 then "B-"
  else if p ≥ 60 then "C+" else if p ≥ 55 then "C" else "C-"

/-- The performance-grade result dict (category score breakdown kept as
separate fields; explanations and recommendation strings omitted as pure
presentation). -/
structure Grade where
  overall_grade : String
  percentage : ℚ
  total_score : ℕ
  max_score : ℕ
  dora_score : ℕ
  code_quality_score : ℕ
  productivity_score : ℕ
  collaboration_score : ℕ
deriving Repr, DecidableEq

/-- get_performance_grade: DORA 40, code quality 25, productivity 20,
collaboration 15; percentage = total / 100 x 100 rounded to 1 decimal;
letter grade by the fixed cutoffs. -/
def getPerformanceGrade (g : GradeInput) : Grade :=
  let dora := leadTimeScore g.leadTimeHours + deployFreqScore g.deployPerWeek
    + failureRateScore g.failurePct + mttrScore g.mttrHours
  let quality := reviewCoverageScore g.reviewCoverage + largePRScore g.largePRsPct
    + filesPerCommitScore g.avgFilesPerCommit
  let productivity := wlbScore g.wlb + streakScore g.maxCommitStreak
  let collaboration := reviewersScore g.uniqueReviewers + responseScore g.reviewResponseHours
  let total := dora + quality + productivity + collaboration
  let totalMax : ℕ := 40 + 25 + 20 + 15
  let percentage : ℚ := roundTo 1 (((total : ℚ) / (totalMax : ℚ)) * 100)
  { overall_grade := letterGrade percentage,
    percentage := percentage,
    total_score := total,
    max_score := totalMax,
    dora_score := dora,
    code_quality_score := quality,
    productivity_score := productivity,
    collaboration_score := collaboration }

/-- _calculate_weekly_trend: weekly counts of items carrying a date in
the given field (commits' committedDate here). -/
def weeklyTrendOf (fns : DateFns) (now : ℤ) (commits : List Commit) : List (ℕ × ℕ) :=
  groupCounts ((commits.filterMap (fun c => c.committedDate)).map
    (fun dv => fns.weekOf (parseDate now dv)))

/-- The dora sub-dict. -/
structure Dora where
  lead_time : LeadTime
  deployment_frequency : DeployFreq
  change_failure_rate : FailureRate
  mttr : MTTRRes

/-- The full metrics snapshot returned by calculate_all_metrics. -/
structure Snapshot where
  total_commits : ℕ
  total_prs : ℕ
  dora : Dora
  code_quality : CodeQuality
  productivity_patterns : Option Productivity
  collaboration : Option Collaboration
  performance_grade : Grade
  lead_time_hours : ℚ
  deployment_frequency : ℚ
  change_failure_rate : ℚ
  review_coverage_percentage : ℚ
  work_life_balance_score : ℚ
  weekly_commit_frequency : Option (List (ℕ × ℕ))
  deployment_frequency_by_week : List (ℕ × ℕ)

/-- calculate_all_metrics: assembles DORA, code quality, productivity,
collaboration, the performance grade (read back from the assembled dict
through .get chains with default 0), convenience top-level fields, and
the weekly trends. -/
def calculateAllMetrics (fns : DateFns) (now : ℤ)
    (commits : List Commit) (prs : List PR) (scope : String) : Snapshot :=
  let dora : Dora :=
    { lead_time := detailedLeadTime now prs,
      deployment_frequency := deploymentFrequency fns now prs,
      change_failure_rate := enhancedFailureRate prs commits,
      mttr := calculateMTTR now prs }
  let cq := codeQuality commits prs
  let prod := productivityPatterns fns now commits
  let collab := collaborationMetrics now prs
  let gi : GradeInput :=
    { leadTimeHours := dora.lead_time.total_lead_time_hours,
      deployPerWeek := dora.deployment_frequency.per_week,
      failurePct := dora.change_failure_rate.percentage,
      mttrHours := dora.mttr.mttr_hours,
      reviewCoverage := cq.review_coverage_percentage,
      largePRsPct := cq.large_prs_percentage,
      avgFilesPerCommit := cq.avg_files_per_commit,
      wlb := ((prod.map (fun p => p.work_life_balance_score)).getD 0),
      maxCommitStreak := ((prod.map (fun p => p.max_commit_streak)).getD 0),
      uniqueReviewers := ((collab.map (fun c => c.unique_reviewers)).getD 0),
      reviewResponseHours := ((collab.map (fun c => c.avg_review_response_time_hours)).getD 0) }
  { total_commits := commits.length,
    total_prs := prs.length,
    dora := dora,
    code_quality := cq,
    productivity_patterns := prod,
    collaboration := collab,
    performance_grade := getPerformanceGrade gi,
    lead_time_hours := dora.lead_time.total_lead_time_hours,
    deployment_frequency := dora.deployment_frequency.per_week,
    change_failure_rate := dora.change_failure_rate.percentage,
    review_coverage_percentage := cq.review_coverage_percentage,
    work_life_balance_score := ((prod.map (fun p => p.work_life_balance_score)).getD 0),
    weekly_commit_frequency :=
      if scope = "global" ∨ scope = "tracked" then some (weeklyTrendOf fns now commits) else none,
    deployment_frequency_by_week := dora.deployment_frequency.weekly_trend }

/-! ### Claims C2 and C9: empty-input snapshot and the grade floor -/

/-- Rounding zero gives zero. -/
theorem roundTo_zero (k : ℕ) : roundTo k 0 = 0 := by
  simp [roundTo]

/-- roundTo 1 of a whole-number percentage n / 100 x 100 is n itself. -/
theorem roundTo_one_pct (n : ℕ) : roundTo 1 ((n : ℚ) / ((40 + 25 + 20 + 15 : ℕ) : ℚ) * 100) = n := by
  have h : ((n : ℚ) / ((40 + 25 + 20 + 15 : ℕ) : ℚ) * 100) = (n : ℚ) := by
    norm_num
  rw [h, roundTo]
  have h2 : ((n : ℚ) * 10 ^ 1) = (((10 * n : ℕ) : ℤ) : ℚ) := by push_cast; ring
  rw [h2, round_intCast]
  push_cast
  ring

/-- The grade percentage always equals the integer total score (the
max score is exactly 100). -/
theorem grade_percentage_eq (g : GradeInput) :
    (getPerformanceGrade g).percentage = ((getPerformanceGrade g).total_score : ℚ) :=
  roundTo_one_pct _

/-- The letter grade is computed from the same percentage value. -/
theorem grade_letter_eq (g : GradeInput) :
    (getPerformanceGrade g).overall_grade = letterGrade ((getPerformanceGrade g).percentage) := rfl

/-- A fixed trivial calendar abstraction for concrete inputs that do not
depend on calendar arithmetic. -/
def constDateFns : DateFns := ⟨fun _ => 0, fun _ => 0, fun _ => 0, fun _ => 0, fun _ => 0⟩

/-- C2 counterexample. The claim says every numeric field of the
empty-input snapshot is 0, including the performance-grade scores; but
the grading rubric awards its floor points on an all-zero snapshot
(0-hour lead time and 0-percent failure rate even land in the elite
tiers), giving total score 72 and percentage 72, not 0. -/
theorem C2_empty_snapshot_counterexample :
    (calculateAllMetrics constDateFns 0 [] [] "global").performance_grade.total_score = 72 ∧
    (calculateAllMetrics constDateFns 0 [] [] "global").performance_grade.percentage = 72 ∧
    (72 : ℚ) ≠ 0 := by
  have htot : (calculateAllMetrics constDateFns 0 [] [] "global").performance_grade.total_score = 72 := by
    show (getPerformanceGrade _).total_score = 72
    rw [show (codeQuality [] ([] : List PR)).review_coverage_percentage
      = roundTo 2 0 from rfl]
    rw [roundTo_zero]
    rfl
  refine ⟨htot, ?_, by norm_num⟩
  rw [show (calculateAllMetrics constDateFns 0 [] [] "global").performance_grade.percentage
    = ((calculateAllMetrics constDateFns 0 [] [] "global").performance_grade.total_score : ℚ)
      from grade_percentage_eq _, htot]
  norm_num

/-- C2 (amended): for empty commit and PR lists, calculate_all_metrics
returns a snapshot (never an error): all numeric DORA and code-quality
fields are 0, the productivity-pattern and collaboration sub-dicts are
empty, the top-level convenience fields are 0, and the performance grade
is the rubric floor outcome for all-zero metrics: total score 72,
percentage 72, letter grade B (nonzero). -/
theorem C2_empty_input_snapshot (fns : DateFns) (now : ℤ) (scope : String) :
    (calculateAllMetrics fns now [] [] scope).total_commits = 0 ∧
    (calculateAllMetrics fns now [] [] scope).total_prs = 0 ∧
    (calculateAllMetrics fns now [] [] scope).dora.lead_time = ⟨0,0,0,0,0,0,0,0,0,0,0⟩ ∧
    (calculateAllMetrics fns now [] [] scope).dora.deployment_frequency =
      { per_week := 0, per_day := 0, weekly_trend := [], daily_trend := none,
        trend_direction := none, total_deployments := none } ∧
    (calculateAllMetrics fns now [] [] scope).dora.change_failure_rate.percentage = 0 ∧
    (calculateAllMetrics fns now [] [] scope).dora.change_failure_rate.hotfix_count = 0 ∧
    (∀ c, (calculateAllMetrics fns now [] [] scope).dora.change_failure_rate.failure_types c = 0) ∧
    (calculateAllMetrics fns now [] [] scope).dora.mttr = ⟨0,0,0,0,0,0⟩ ∧
    (calculateAllMetrics fns now [] [] scope).code_quality.avg_commit_size = 0 ∧
    (calculateAllMetrics fns now [] [] scope).code_quality.avg_pr_size = 0 ∧
    (calculateAllMetrics fns now [] [] scope).code_quality.large_commits_percentage = 0 ∧
    (calculateAllMetrics fns now [] [] scope).code_quality.large_prs_percentage = 0 ∧
    (calculateAllMetrics fns now [] [] scope).code_quality.review_coverage_percentage = 0 ∧
    (calculateAllMetrics fns now [] [] scope).code_quality.avg_files_per_commit = 0 ∧
    (calculateAllMetrics fns now [] [] scope).code_quality.dist_small = 0 ∧
    (calculateAllMetrics fns now [] [] scope).code_quality.dist_medium = 0 ∧
    (calculateAllMetrics fns now [] [] scope).code_quality.dist_large = 0 ∧
    (calculateAllMetrics fns now [] [] scope).productivity_patterns = none ∧
    (calculateAllMetrics fns now [] [] scope).collaboration = none ∧
    (calculateAllMetrics fns now [] [] scope).lead_time_hours = 0 ∧
    (calculateAllMetrics fns now [] [] scope).deployment_frequency = 0 ∧
    (calculateAllMetrics fns now [] [] scope).change_failure_rate = 0 ∧
    (calculateAllMetrics fns now [] [] scope).review_coverage_percentage = 0 ∧
    (calculateAllMetrics fns now [] [] scope).work_life_balance_score = 0 ∧
    (calculateAllMetrics fns now [] [] scope).performance_grade.total_score = 72 ∧
    (calculateAllMetrics fns now [] [] scope).performance_grade.percentage = 72 ∧
    (calculateAllMetrics fns now [] [] scope).performance_grade.overall_grade = "B" := by
  have hrc : (calculateAllMetrics fns now [] [] scope).code_quality.review_coverage_percentage = 0 := by
    rw [show (calculateAllMetrics fns now [] [] scope).code_quality.review_coverage_percentage
      = roundTo 2 0 from rfl]
    exact roundTo_zero 2
  have htot : (calculateAllMetrics fns now [] [] scope).performance_grade.total_score = 72 := by
    show (getPerformanceGrade _).total_score = 72
    rw [show (codeQuality [] ([] : List PR)).review_coverage_percentage
      = roundTo 2 0 from rfl]
    rw [roundTo_zero]
    rfl
  have hpct : (calculateAllMetrics fns now [] [] scope).performance_grade.percentage = 72 := by
    rw [show (calculateAllMetrics fns now [] [] scope).performance_grade.percentage
      = ((calculateAllMetrics fns now [] [] scope).performance_grade.total_score : ℚ)
        from grade_percentage_eq _, htot]
    norm_num
  refine ⟨rfl, rfl, rfl, rfl, rfl, rfl, fun c => rfl, rfl, rfl, rfl, rfl, rfl, hrc, rfl,
    rfl, rfl, rfl, rfl, rfl, rfl, rfl, rfl, hrc, rfl, htot, hpct, ?_⟩
  rw [show (calculateAllMetrics fns now [] [] scope).performance_grade.overall_grade
    = letterGrade ((calculateAllMetrics fns now [] [] scope).performance_grade.percentage)
      from grade_letter_eq _, hpct]
  decide

/-- C9: every rubric branch awards a minimum number of points, so the
performance grade is bounded below by a nonzero floor on every input:
DORA at least 12 of 40, code quality at least 12 of 25, productivity at
least 9 of 20, collaboration at least 5 of 15, hence total at least 38
and percentage at least 38 — an all-zero snapshot still grades nonzero. -/
theorem C9_grade_floor (g : GradeInput) :
    12 ≤ (getPerformanceGrade g).dora_score ∧
    12 ≤ (getPerformanceGrade g).code_quality_score ∧
    9 ≤ (getPerformanceGrade g).productivity_score ∧
    5 ≤ (getPerformanceGrade g).collaboration_score ∧
    38 ≤ (getPerformanceGrade g).total_score ∧
    (38 : ℚ) ≤ (getPerformanceGrade g).percentage := by
  have h1 : 3 ≤ leadTimeScore g.leadTimeHours := by
    unfold leadTimeScore; split_ifs <;> omega
  have h2 : 3 ≤ deployFreqScore g.deployPerWeek := by
    unfold deployFreqScore; split_ifs <;> omega
  have h3 : 3 ≤ failureRateScore g.failurePct := by
    unfold failureRateScore; split_ifs <;> omega
  have h4 : 3 ≤ mttrScore g.mttrHours := by
    unfold mttrScore; split_ifs <;> omega
  have h5 : 5 ≤ reviewCoverageScore g.reviewCoverage := by
    unfold reviewCoverageScore; split_ifs <;> omega
  have h6 : 3 ≤ largePRScore g.largePRsPct := by
    unfold largePRScore; split_ifs <;> omega
  have h7 : 4 ≤ filesPerCommitScore g.avgFilesPerCommit := by
    unfold filesPerCommitScore; split_ifs <;> omega
  have h8 : 5 ≤ wlbScore g.wlb := by
    unfold wlbScore; split_ifs <;> omega
  have h9 : 4 ≤ streakScore g.maxCommitStreak := by
    unfold streakScore; split_ifs <;> omega
  have h10 : 3 ≤ reviewersScore g.uniqueReviewers := by
    unfold reviewersScore; split_ifs <;> omega
  have h11 : 2 ≤ responseScore g.reviewResponseHours := by
    unfold responseScore; split_ifs <;> omega
  have hd : 12 ≤ (getPerformanceGrade g).dora_score := by
    show 12 ≤ leadTimeScore g.leadTimeHours + deployFreqScore g.deployPerWeek
      + failureRateScore g.failurePct + mttrScore g.mttrHours
    omega
  have hq : 12 ≤ (getPerformanceGrade g).code_quality_score := by
    show 12 ≤ reviewCoverageScore g.reviewCoverage + largePRScore g.largePRsPct
      + filesPerCommitScore g.avgFilesPerCommit
    omega
  have hp : 9 ≤ (getPerformanceGrade g).productivity_score := by
    show 9 ≤ wlbScore g.wlb + streakScore g.maxCommitStreak
    omega
  have hc : 5 ≤ (getPerformanceGrade g).collaboration_score := by
    show 5 ≤ reviewersScore g.uniqueReviewers + responseScore g.reviewResponseHours
    omega
  have htot : 38 ≤ (getPerformanceGrade g).total_score := by
    show 38 ≤ leadTimeScore g.leadTimeHours + deployFreqScore g.deployPerWeek
      + failureRateScore g.failurePct + mttrScore g.mttrHours
      + (reviewCoverageScore g.reviewCoverage + largePRScore g.largePRsPct
        + filesPerCommitScore g.avgFilesPerCommit)
      + (wlbScore g.wlb + streakScore g.maxCommitStreak)
      + (reviewersScore g.uniqueReviewers + responseScore g.reviewResponseHours)
    omega
  refine ⟨hd, hq, hp, hc, htot, ?_⟩
  rw [grade_percentage_eq]
  exact_mod_cast htot

/-! ### Claim C3: lead-time decomposition -/

/-- A left fold of min never exceeds its initial value. -/
theorem foldl_min_le_init (d : ℤ) (ds : List ℤ) : ds.foldl min d ≤ d := by
  induction ds generalizing d with
  | nil => exact le_refl d
  | cons a ds ih => exact le_trans (ih (min d a)) (min_le_left d a)

/-- A left fold of max is at least its initial value. -/
theorem init_le_foldl_max (d : ℤ) (ds : List ℤ) : d ≤ ds.foldl max d := by
  induction ds generalizing d with
  | nil => exact le_refl d
  | cons a ds ih => exact le_trans (le_max_left d a) (ih (max d a))

/-- C3 counterexample: a merged PR with two reviews (first at 20, last at
30), first commit 0, created 10, merged 40. All three sub-measurements
are available and nonnegative (code 10, review 10, merge 10), yet the
computed total lead time is 40, not 10 + 10 + 10 = 30: the decomposition
misses the span between first and last review. -/
theorem C3_lead_time_sum_counterexample :
    prLeadContrib 1000
      { number := 0, title := "t", body := "", createdAt := some (.valid 10),
        mergedAt := some (.valid 40), additions := 0, deletions := 0,
        commitDates := [some (.valid 0)],
        reviews := [{ submittedAt := some (.valid 20), author := some "r" },
                    { submittedAt := some (.valid 30), author := some "s" }],
        author := some "me" }
      = { lead := [40], code := [10], review := [10], merge := [10] } ∧
    (40 : ℚ) ≠ 10 + 10 + 10 := by
  exact ⟨by decide, by norm_num⟩

/-- C3 (amended): for a merged PR whose parsed commit dates are d0 :: ds
and parsed review dates are r0 :: rs, with code, review and merge times
all nonnegative, the code appends exactly the four values code = created
minus first commit, review = first review minus created, merge = merged
minus last review, total = merged minus first commit; the total equals
code + review + merge + (last review minus first review), and equals the
plain sum code + review + merge exactly when the first and last review
coincide (in particular for a single review). -/
theorem C3_lead_time_decomposition (now c m : ℤ) (pr : PR)
    (d0 : ℤ) (ds : List ℤ) (r0 : ℤ) (rs : List ℤ)
    (hC : pr.createdAt = some (.valid c)) (hM : pr.mergedAt = some (.valid m))
    (hcds : (pr.commitDates.filterMap id).map (parseDate now) = d0 :: ds)
    (hrds : (pr.reviews.filterMap (fun rv => rv.submittedAt)).map (parseDate now) = r0 :: rs)
    (h1 : 0 ≤ c - ds.foldl min d0)
    (h2 : 0 ≤ rs.foldl min r0 - c)
    (h3 : 0 ≤ m - rs.foldl max r0) :
    prLeadContrib now pr =
      { lead := [((m - ds.foldl min d0 : ℤ) : ℚ)],
        code := [((c - ds.foldl min d0 : ℤ) : ℚ)],
        review := [((rs.foldl min r0 - c : ℤ) : ℚ)],
        merge := [((m - rs.foldl max r0 : ℤ) : ℚ)] } ∧
    ((m - ds.foldl min d0 : ℤ) : ℚ)
      = ((c - ds.foldl min d0 : ℤ) : ℚ) + ((rs.foldl min r0 - c : ℤ) : ℚ)
        + ((m - rs.foldl max r0 : ℤ) : ℚ)
        + ((rs.foldl max r0 - rs.foldl min r0 : ℤ) : ℚ) ∧
    (((m - ds.foldl min d0 : ℤ) : ℚ)
      = ((c - ds.foldl min d0 : ℤ) : ℚ) + ((rs.foldl min r0 - c : ℤ) : ℚ)
        + ((m - rs.foldl max r0 : ℤ) : ℚ)
     ↔ rs.foldl min r0 = rs.foldl max r0) := by
  have hfrlr : rs.foldl min r0 ≤ rs.foldl max r0 :=
    le_trans (foldl_min_le_init r0 rs) (init_le_foldl_max r0 rs)
  refine ⟨?_, by push_cast; ring, ?_⟩
  · have hcode : (0 : ℚ) ≤ ((c - ds.foldl min d0 : ℤ) : ℚ) := by exact_mod_cast h1
    have hrev : (0 : ℚ) ≤ ((rs.foldl min r0 - c : ℤ) : ℚ) := by exact_mod_cast h2
    have hmer : (0 : ℚ) ≤ ((m - rs.foldl max r0 : ℤ) : ℚ) := by exact_mod_cast h3
    have htot : (0 : ℚ) ≤ ((m - ds.foldl min d0 : ℤ) : ℚ) := by
      have : (0 : ℤ) ≤ m - ds.foldl min d0 := by omega
      exact_mod_cast this
    simp only [prLeadContrib, hM, hC, hcds, hrds, parseDate,
      if_pos hcode, if_pos hrev, if_pos hmer, if_pos htot]
  · constructor
    · intro h
      have hz : (m - ds.foldl min d0 : ℤ)
          = (c - ds.foldl min d0) + (rs.foldl min r0 - c) + (m - rs.foldl max r0) := by
        exact_mod_cast h
      omega
    · intro h
      push_cast
      rw [h]
      ring

/-- Witness for C3_lead_time_decomposition: a single-review PR (created
10, review 20, merged 40, first commit 0), where the decomposition does
sum exactly. -/
theorem C3_lead_time_decomposition_witness :
    prLeadContrib 0
      { number := 0, title := "t", body := "", createdAt := some (.valid 10),
        mergedAt := some (.valid 40), additions := 0, deletions := 0,
        commitDates := [some (.valid 0)],
        reviews := [{ submittedAt := some (.valid 20), author := some "r" }],
        author := some "me" }
      = { lead := [40], code := [10], review := [10], merge := [20] } ∧
    (40 : ℚ) = 10 + 10 + 20 := by
  have h := C3_lead_time_decomposition 0 10 40
    { number := 0, title := "t", body := "", createdAt := some (.valid 10),
      mergedAt := some (.valid 40), additions := 0, deletions := 0,
      commitDates := [some (.valid 0)],
      reviews := [{ submittedAt := some (.valid 20), author := some "r" }],
      author := some "me" }
    0 [] 20 [] rfl rfl rfl rfl (by decide) (by decide) (by decide)
  refine ⟨?_, by norm_num⟩
  rw [h.1]
  decide

/-! ### Claim C5: malformed records in lead-time computation -/

/-- C5 counterexample: a merged PR whose mergedAt string is unparsable is
not skipped: _parse_date falls back to datetime.now() (here 1000), so
with created 100 and first commit 50 the record contributes lead time 950
and code time 50 to the aggregates, instead of contributing nothing. -/
theorem C5_unparsable_not_skipped_counterexample :
    prLeadContrib 1000
      { number := 0, title := "t", body := "", createdAt := some (.valid 100),
        mergedAt := some .invalid, additions := 0, deletions := 0,
        commitDates := [some (.valid 50)], reviews := [], author := some "me" }
      = { lead := [950], code := [50], review := [], merge := [] } ∧
    (detailedLeadTime 1000
      [{ number := 0, title := "t", body := "", createdAt := some (.valid 100),
         mergedAt := some .invalid, additions := 0, deletions := 0,
         commitDates := [some (.valid 50)], reviews := [], author := some "me" }]).total_lead_time_sec
      = 950 ∧
    detailedLeadTime 1000
      [{ number := 0, title := "t", body := "", createdAt := some (.valid 100),
         mergedAt := some .invalid, additions := 0, deletions := 0,
         commitDates := [some (.valid 50)], reviews := [], author := some "me" }]
      ≠ detailedLeadTime 1000 [] := by
  have hl : leadLists 1000
      [{ number := 0, title := "t", body := "", createdAt := some (.valid 100),
         mergedAt := some .invalid, additions := 0, deletions := 0,
         commitDates := [some (.valid 50)], reviews := [], author := some "me" }]
      = { lead := [950], code := [50], review := [], merge := [] } := by decide
  have h950 : (detailedLeadTime 1000
      [{ number := 0, title := "t", body := "", createdAt := some (.valid 100),
         mergedAt := some .invalid, additions := 0, deletions := 0,
         commitDates := [some (.valid 50)], reviews := [], author := some "me" }]).total_lead_time_sec
      = 950 := by
    unfold detailedLeadTime
    rw [hl]
    simp [average]
  refine ⟨by decide, h950, ?_⟩
  intro heq
  have h0 : (detailedLeadTime 1000 ([] : List PR)).total_lead_time_sec = 0 := by rfl
  rw [heq, h0] at h950
  norm_num at h950

/-- _calculate_deployment_frequency reads only the mergedAt column of
the PR list: two lists with equal mergedAt columns give equal results. -/
theorem deploymentFrequency_congr (fns : DateFns) (now : ℤ) (prs prs2 : List PR)
    (h : prs.map (fun pr => pr.mergedAt) = prs2.map (fun pr => pr.mergedAt)) :
    deploymentFrequency fns now prs = deploymentFrequency fns now prs2 := by
  have h1 : ∀ l : List PR, (l.map (fun pr => pr.mergedAt)).filterMap id
      = l.filterMap (fun pr => pr.mergedAt) := by
    intro l
    rw [List.filterMap_map]
    rfl
  have hfm : prs.filterMap (fun pr => pr.mergedAt)
      = prs2.filterMap (fun pr => pr.mergedAt) := by
    rw [← h1 prs, ← h1 prs2, h]
  have h2 : ∀ l : List PR, (l.map (fun pr => pr.mergedAt)).countP (fun o => o.isSome)
      = l.countP (fun pr => pr.mergedAt.isSome) := by
    intro l
    rw [List.countP_map]
    rfl
  have hcnt : prs.countP (fun pr => pr.mergedAt.isSome)
      = prs2.countP (fun pr => pr.mergedAt.isSome) := by
    rw [← h2 prs, ← h2 prs2, h]
  by_cases he : prs = []
  · have he2 : prs2 = [] := by
      have h3 : prs2.map (fun pr => pr.mergedAt) = [] := by rw [← h, he]; rfl
      exact List.map_eq_nil.mp h3
    rw [he, he2]
  · have he2 : prs2 ≠ [] := by
      intro hc
      apply he
      have h3 : prs.map (fun pr => pr.mergedAt) = [] := by rw [h, hc]; rfl
      exact List.map_eq_nil.mp h3
    unfold deploymentFrequency
    rw [if_neg he, if_neg he2, hfm, hcnt]

/-- calculate_code_quality_metrics never reads createdAt: erasing the
createdAt field of one PR leaves the whole result unchanged. -/
theorem codeQuality_createdAt_irrelevant (commits : List Commit) (pre post : List PR) (pr : PR) :
    codeQuality commits (pre ++ { pr with createdAt := none } :: post)
      = codeQuality commits (pre ++ pr :: post) := by
  have hne1 : pre ++ { pr with createdAt := none } :: post ≠ [] := by simp
  have hne2 : pre ++ pr :: post ≠ [] := by simp
  have hsz : (pre ++ { pr with createdAt := none } :: post).map (fun p => p.additions + p.deletions)
      = (pre ++ pr :: post).map (fun p => p.additions + p.deletions) := by
    simp
  have hrev : (pre ++ { pr with createdAt := none } :: post).countP (fun p => decide (p.reviews ≠ []))
      = (pre ++ pr :: post).countP (fun p => decide (p.reviews ≠ [])) := by
    rw [List.countP_append, List.countP_append, List.countP_cons, List.countP_cons]
  have hlen : (pre ++ { pr with createdAt := none } :: post).length
      = (pre ++ pr :: post).length := by
    simp
  unfold codeQuality
  rw [hsz, hrev, hlen]
  simp only [if_neg hne1, if_neg hne2]

/-- The per-review try block: with a missing createdAt key, every review
of the PR raises KeyError at the response-time computation and
contributes no response time (the reviewer was already appended). -/
theorem prRespTimes_none (now : ℤ) (pr : PR) (h : pr.createdAt = none) :
    prRespTimes now pr = [] := by
  unfold prRespTimes
  rw [List.filterMap_eq_nil]
  intro rv _
  cases hrv : rv.author with
  | none => simp [hrv]
  | some who =>
    by_cases hself : pr.author = some who
    · simp [hrv, hself]
    · simp [hrv, hself, h]

/-- C5 (amended): the computation never raises (every embedded function
is total); skipping is per-sub-computation, not global. A PR record
missing createdAt contributes nothing to the lead-time breakdown (its
KeyError is caught per record) nor to review response times, and the
remaining records are processed normally; but the same record still
contributes to every aggregate that does not read the missing field: it
is counted in total_prs, deployment frequency is entirely unchanged by
erasing createdAt (it reads only mergedAt), code-quality statistics
(PR sizes, review coverage) are unchanged, and its reviewers are still
extracted. A record with an unparsable timestamp string is not skipped
at all: _parse_date substitutes the current time and the record still
contributes. -/
theorem C5_malformed_record_handling :
    (∀ (now : ℤ) (pr : PR), pr.createdAt = none →
      prLeadContrib now pr = { lead := [], code := [], review := [], merge := [] }) ∧
    (∀ (now : ℤ) (pr : PR) (pre post : List PR), pr.createdAt = none →
      detailedLeadTime now (pre ++ pr :: post) = detailedLeadTime now (pre ++ post)) ∧
    (∀ (now : ℤ) (pr : PR), pr.createdAt = none → prRespTimes now pr = []) ∧
    (∀ (fns : DateFns) (now : ℤ) (commits : List Commit) (prs : List PR) (scope : String),
      (calculateAllMetrics fns now commits prs scope).total_prs = prs.length ∧
      (calculateAllMetrics fns now commits prs scope).total_commits = commits.length) ∧
    (∀ (fns : DateFns) (now : ℤ) (pre post : List PR) (pr : PR),
      deploymentFrequency fns now (pre ++ { pr with createdAt := none } :: post)
        = deploymentFrequency fns now (pre ++ pr :: post)) ∧
    (∀ (commits : List Commit) (pre post : List PR) (pr : PR),
      codeQuality commits (pre ++ { pr with createdAt := none } :: post)
        = codeQuality commits (pre ++ pr :: post)) ∧
    (∀ pr : PR, prReviewers { pr with createdAt := none } = prReviewers pr) ∧
    (∀ now : ℤ, parseDate now .invalid = now) := by
  have hskip : ∀ (now : ℤ) (pr : PR), pr.createdAt = none →
      prLeadContrib now pr = { lead := [], code := [], review := [], merge := [] } := by
    intro now pr h
    cases hm : pr.mergedAt with
    | none => simp [prLeadContrib, hm]
    | some dv => simp [prLeadContrib, hm, h]
  refine ⟨hskip, ?_, prRespTimes_none, fun _ _ _ _ _ => ⟨rfl, rfl⟩, ?_,
    codeQuality_createdAt_irrelevant, fun _ => rfl, fun _ => rfl⟩
  · intro now pr pre post h
    have hll : leadLists now (pre ++ pr :: post) = leadLists now (pre ++ post) := by
      simp [leadLists, hskip now pr h]
    unfold detailedLeadTime
    rw [hll]
  · intro fns now pre post pr
    apply deploymentFrequency_congr
    simp

/-- Witness for C5_malformed_record_handling: a PR missing createdAt
contributes no lead time and no response times, and a list of one
well-formed PR plus that record has the same lead-time breakdown as the
well-formed PR alone. -/
theorem C5_malformed_record_handling_witness :
    prLeadContrib 0
      { number := 1, title := "x", body := "", createdAt := none,
        mergedAt := some (.valid 10), additions := 0, deletions := 0,
        commitDates := [some (.valid 0)], reviews := [], author := none }
      = { lead := [], code := [], review := [], merge := [] } ∧
    detailedLeadTime 0
      [{ number := 0, title := "ok", body := "", createdAt := some (.valid 5),
         mergedAt := some (.valid 30), additions := 0, deletions := 0,
         commitDates := [some (.valid 2)], reviews := [], author := none },
       { number := 1, title := "x", body := "", createdAt := none,
         mergedAt := some (.valid 10), additions := 0, deletions := 0,
         commitDates := [some (.valid 0)], reviews := [], author := none }]
      = detailedLeadTime 0
        [{ number := 0, title := "ok", body := "", createdAt := some (.valid 5),
           mergedAt := some (.valid 30), additions := 0, deletions := 0,
           commitDates := [some (.valid 2)], reviews := [], author := none }] ∧
    prRespTimes 0
      { number := 2, title := "y", body := "", createdAt := none,
        mergedAt := some (.valid 10), additions := 0, deletions := 0,
        commitDates := [some (.valid 0)],
        reviews := [{ submittedAt := some (.valid 5), author := some "r" }],
        author := some "me" } = [] := by
  refine ⟨?_, ?_, ?_⟩
  · exact C5_malformed_record_handling.1 0 _ rfl
  · exact C5_malformed_record_handling.2.1 0 _
      [{ number := 0, title := "ok", body := "", createdAt := some (.valid 5),
         mergedAt := some (.valid 30), additions := 0, deletions := 0,
         commitDates := [some (.valid 2)], reviews := [], author := none }] [] rfl
  · exact C5_malformed_record_handling.2.2.1 0 _ rfl

/-! ### Claims C4 and C8: change-failure-rate classification -/

/-- The running total of the classification fold counts the PRs whose
classification succeeds. -/
theorem failStep_total (prs : List PR) :
    ∀ acc : (FailCat → ℕ) × ℕ × List ℕ,
      (prs.foldl failStep acc).2.1
        = acc.2.1 + prs.countP (fun pr => (classifyPR pr).isSome) := by
  induction prs with
  | nil => intro acc; simp
  | cons pr rest ih =>
    intro acc
    rw [List.foldl_cons, ih, List.countP_cons]
    cases hc : classifyPR pr with
    | none => simp [failStep, hc]
    | some c => simp [failStep, hc]; omega

/-- The per-category counter of the classification fold counts the PRs
classified into exactly that category. -/
theorem failStep_types (prs : List PR) :
    ∀ (acc : (FailCat → ℕ) × ℕ × List ℕ) (c : FailCat),
      (prs.foldl failStep acc).1 c
        = acc.1 c + prs.countP (fun pr => classifyPR pr == some c) := by
  induction prs with
  | nil => intro acc c; simp
  | cons pr rest ih =>
    intro acc c
    rw [List.foldl_cons, ih, List.countP_cons]
    cases hc : classifyPR pr with
    | none => simp [failStep, hc]
    | some c2 =>
      by_cases hcc : c = c2
      · subst hcc
        simp [failStep, hc]
        omega
      · simp [failStep, hc, hcc, Ne.symm hcc]

/-- The percentage returned for a nonempty PR list: classified merged PRs
divided by the length of the whole PR list, times 100, rounded to two
decimals. -/
theorem failureRate_percentage_formula (prs : List PR) (commits : List Commit)
    (h : prs ≠ []) :
    (enhancedFailureRate prs commits).percentage
      = roundTo 2 (((prs.countP (fun pr => (classifyPR pr).isSome) : ℚ)
          / (prs.length : ℚ)) * 100) := by
  unfold enhancedFailureRate
  rw [if_neg h]
  have := failStep_total prs (fun _ => 0, 0, [])
  simp only [this]
  norm_num

/-- The per-category counts returned for a nonempty PR list. -/
theorem failureRate_types_formula (prs : List PR) (commits : List Commit)
    (h : prs ≠ []) (c : FailCat) :
    (enhancedFailureRate prs commits).failure_types c
      = prs.countP (fun pr => classifyPR pr == some c) := by
  unfold enhancedFailureRate
  rw [if_neg h]
  have := failStep_types prs (fun _ => 0, 0, []) c
  simp only [this]
  norm_num

/-- The spec example scenario: 12 merged PRs, two of them titled with a
hotfix prefix, the rest free of failure keywords. -/
def prs12example : List PR :=
  ((List.range 10).map (fun i =>
    { number := i, title := "feature work", body := "", createdAt := some (.valid 0),
      mergedAt := some (.valid ((i : ℤ) * 86400)), additions := 10, deletions := 5,
      commitDates := [some (.valid 0)], reviews := [], author := some "dev" }))
  ++ [{ number := 10, title := "hotfix: restore login flow", body := "",
        createdAt := some (.valid 0), mergedAt := some (.valid 864000),
        additions := 10, deletions := 5, commitDates := [some (.valid 0)],
        reviews := [], author := some "dev" },
      { number := 11, title := "hotfix: correct token expiry", body := "",
        createdAt := some (.valid 0), mergedAt := some (.valid 950400),
        additions := 10, deletions := 5, commitDates := [some (.valid 0)],
        reviews := [], author := some "dev" }]

/-- C4 counterexample: a list of one merged hotfix PR and one unmerged
PR. The denominator is the length of the whole PR list (2), not the
merged count (1): the code returns 50 percent where the claim requires
1 / 1 x 100 = 100. -/
theorem C4_denominator_counterexample :
    (enhancedFailureRate
      [{ number := 0, title := "hotfix: z", body := "", createdAt := some (.valid 0),
         mergedAt := some (.valid 100), additions := 0, deletions := 0,
         commitDates := [some (.valid 0)], reviews := [], author := some "me" },
       { number := 1, title := "other", body := "", createdAt := some (.valid 0),
         mergedAt := none, additions := 0, deletions := 0,
         commitDates := [], reviews := [], author := some "me" }] []).percentage = 50 ∧
    (50 : ℚ) ≠ 100 := by
  have hf := failureRate_percentage_formula
    [{ number := 0, title := "hotfix: z", body := "", createdAt := some (.valid 0),
       mergedAt := some (.valid 100), additions := 0, deletions := 0,
       commitDates := [some (.valid 0)], reviews := [], author := some "me" },
     { number := 1, title := "other", body := "", createdAt := some (.valid 0),
       mergedAt := none, additions := 0, deletions := 0,
       commitDates := [], reviews := [], author := some "me" }] [] (by decide)
  rw [hf]
  have hcnt : List.countP (fun pr => (classifyPR pr).isSome)
      [{ number := 0, title := "hotfix: z", body := "", createdAt := some (.valid 0),
         mergedAt := some (.valid 100), additions := 0, deletions := 0,
         commitDates := [some (.valid 0)], reviews := [], author := some "me" },
       { number := 1, title := "other", body := "", createdAt := some (.valid 0),
         mergedAt := none, additions := 0, deletions := 0,
         commitDates := [], reviews := [], author := some "me" }] = 1 := by decide
  rw [hcnt]
  constructor
  · norm_num [roundTo, round_eq]
  · norm_num

/-- C4 (amended): for every nonempty PR list the returned percentage is
the number of classified merged PRs divided by the length of the whole
PR list (merged and unmerged alike) times 100, rounded to two decimals;
on the spec example of 12 merged PRs with two hotfix titles this gives
16.67 percent and failure_types hotfix = 2 with no other category
counted. -/
theorem C4_failure_rate_denominator :
    (∀ (prs : List PR) (commits : List Commit), prs ≠ [] →
      (enhancedFailureRate prs commits).percentage
        = roundTo 2 (((prs.countP (fun pr => (classifyPR pr).isSome) : ℚ)
            / (prs.length : ℚ)) * 100)) ∧
    (enhancedFailureRate prs12example []).percentage = 1667 / 100 ∧
    (enhancedFailureRate prs12example []).failure_types .hotfix = 2 ∧
    (enhancedFailureRate prs12example []).failure_types .revert = 0 ∧
    (enhancedFailureRate prs12example []).failure_types .bugfix = 0 ∧
    (enhancedFailureRate prs12example []).failure_types .patch = 0 := by
  refine ⟨failureRate_percentage_formula, ?_, by decide, by decide, by decide, by decide⟩
  rw [failureRate_percentage_formula prs12example [] (by decide)]
  have hcnt : prs12example.countP (fun pr => (classifyPR pr).isSome) = 2 := by decide
  have hlen : prs12example.length = 12 := by decide
  rw [hcnt, hlen]
  norm_num [roundTo, round_eq]

/-- Witness for C4_failure_rate_denominator: the formula applied to the
concrete 12-PR example list. -/
theorem C4_failure_rate_denominator_witness :
    (enhancedFailureRate prs12example []).percentage
      = roundTo 2 (((prs12example.countP (fun pr => (classifyPR pr).isSome) : ℚ)
          / (prs12example.length : ℚ)) * 100) :=
  C4_failure_rate_denominator.1 prs12example [] (by decide)

/-- C8: change-failure classification is a pure function (re-running it
on the same list yields the same result); for a nonempty list the count
of every category equals the number of merged PRs whose first matching
category in the fixed priority order revert, hotfix, bugfix, patch is
that category (so every classified PR is counted under exactly one
category), and the total is the number of classified PRs; in particular
a merged PR matching hotfix and bugfix keywords but no revert keyword is
classified as hotfix only. -/
theorem C8_classification_priority :
    (∀ (prs : List PR) (commits : List Commit),
      enhancedFailureRate prs commits = enhancedFailureRate prs commits) ∧
    (∀ (prs : List PR) (commits : List Commit) (c : FailCat), prs ≠ [] →
      (enhancedFailureRate prs commits).failure_types c
        = prs.countP (fun pr => classifyPR pr == some c) ∧
      (enhancedFailureRate prs commits).total_failures
        = some (prs.countP (fun pr => (classifyPR pr).isSome))) ∧
    (∀ pr : PR, pr.mergedAt.isSome = true →
      catMatches pr .revert = false → catMatches pr .hotfix = true →
      catMatches pr .bugfix = true →
      classifyPR pr = some .hotfix ∧
      ∀ c : FailCat, c ≠ .hotfix → (classifyPR pr == some c) = false) := by
  refine ⟨fun _ _ => rfl, ?_, ?_⟩
  · intro prs commits c h
    refine ⟨failureRate_types_formula prs commits h c, ?_⟩
    unfold enhancedFailureRate
    rw [if_neg h]
    have := failStep_total prs (fun _ => 0, 0, [])
    simp only [this]
    norm_num
  · intro pr hm hr hh _hb
    have hnone : pr.mergedAt.isNone = false := by
      cases hmm : pr.mergedAt
      · rw [hmm] at hm; simp at hm
      · simp [hmm]
    have hcl : classifyPR pr = some .hotfix := by
      unfold classifyPR
      rw [hnone]
      simp only [Bool.false_eq_true, if_false, catOrder, List.find?, hr, hh]
    refine ⟨hcl, ?_⟩
    intro c hc
    rw [hcl]
    cases c <;> simp_all

/-- Witness for C8_classification_priority: the count identity on the
12-PR example list, and the hotfix-over-bugfix priority on a PR titled
with both a hotfix and a bugfix keyword. -/
theorem C8_classification_priority_witness :
    ((enhancedFailureRate prs12example []).failure_types .hotfix
        = prs12example.countP (fun pr => classifyPR pr == some .hotfix)) ∧
    classifyPR
      { number := 0, title := "hotfix: fix bug", body := "", createdAt := some (.valid 0),
        mergedAt := some (.valid 1), additions := 0, deletions := 0,
        commitDates := [], reviews := [], author := none } = some .hotfix := by
  constructor
  · exact (C8_classification_priority.2.1 prs12example [] .hotfix (by decide)).1
  · exact (C8_classification_priority.2.2
      { number := 0, title := "hotfix: fix bug", body := "", createdAt := some (.valid 0),
        mergedAt := some (.valid 1), additions := 0, deletions := 0,
        commitDates := [], reviews := [], author := none }
      (by decide) (by decide) (by decide) (by decide)).1

/-! ### Embedding of backend/ml_analyzer.py (EnhancedMLAnalyzer)

The sklearn / statsmodels model objects, the standard scaler and the
metadata dicts are opaque blobs here; the training helpers
_train_full_model and _update_model_incrementally call into sklearn and
the filesystem and are oracles of the environment, as are the
clock-dependent decision helpers. The claims under verification concern
the control flow around them. -/

/-- Class constant MIN_FORECAST_POINTS = 10. -/
def MIN_FORECAST_POINTS : ℕ := 10

/-- Class constant CONTINUOUS_LEARNING_THRESHOLD = 5. -/
def CONTINUOUS_LEARNING_THRESHOLD : ℕ := 5

/-- A historical snapshot entry (opaque: only its presence matters to
the control flow under verification). -/
abbrev HistEntry := ℕ

/-- Per-metric mutable state of the analyzer: models, scalers,
metadata and cached last-training data, all keyed by metric name. -/
structure MLState where
  models : String → Option ℕ
  scalers : String → Option ℕ
  model_metadata : String → Option ℕ
  last_training_data : String → Option ℕ

/-- Environment oracle for train_forecasting_model: the number of new
data points found by _detect_new_data_points, the clock-dependent
_should_retrain_full_model decision, and the two training helpers
(sklearn + disk persistence). -/
structure MLEnv where
  newDataCount : ℕ
  shouldFullRetrain : Bool
  trainFull : MLState → Bool × MLState
  updateIncr : MLState → Bool × MLState

/-- train_forecasting_model: below the minimum sample floor, log a
warning and return False before touching any state; otherwise dispatch
to full retraining (no or stale model), incremental update (enough new
data), or keep the existing model. -/
def trainForecastingModel (env : MLEnv) (st : MLState)
    (hist : List HistEntry) (metric : String) : Bool × MLState :=
  if hist.length < MIN_FORECAST_POINTS then (false, st)
  else
    let hasNewData := env.newDataCount ≥ CONTINUOUS_LEARNING_THRESHOLD
    let hasExistingModel := (st.models metric).isSome
    if env.shouldFullRetrain || !hasExistingModel then env.trainFull st
    else if hasNewData then env.updateIncr st
    else (true, st)

/-- One merged anomaly record: point index, timestamp, value, and the
detector that produced the record. -/
structure AnomRec where
  idx : ℕ
  ts : ℕ
  value : ℚ
  method : String
deriving Repr, DecidableEq

/-- The records one detector appends, in index order: one record per
flagged index of the series. The detector decision functions (isolation
forest, z-score, moving-average deviation) are oracle flags. -/
def detRecords (y : List ℚ) (tsF : ℕ → ℕ) (flag : ℕ → Bool) (meth : String) : List AnomRec :=
  (List.range y.length).filterMap (fun i =>
    if flag i then some ⟨i, tsF i, y.getD i 0, meth⟩ else none)

/-- The concatenated anomaly list in detection order: isolation forest,
then z-score, then moving average. -/
def rawAnomalies (y : List ℚ) (tsF : ℕ → ℕ) (iso z ma : ℕ → Bool) : List AnomRec :=
  detRecords y tsF iso "isolation_forest" ++ detRecords y tsF z "z_score"
    ++ detRecords y tsF ma "moving_average"

/-- Timestamp order on anomaly records (the sorted() key). -/
def leTs (a b : AnomRec) : Bool := decide (a.ts ≤ b.ts)

/-- The de-duplication loop: keep a record only when its index has not
been seen yet. -/
def dedupByIdx : List AnomRec → List ℕ → List AnomRec
  | [], _ => []
  | a :: rest, seen =>
    if a.idx ∈ seen then dedupByIdx rest seen
    else a :: dedupByIdx rest (a.idx :: seen)

/-- The detect_anomalies result dict; method is present only in the
insufficient-data early return, anomaly_count only in the main return. -/
structure AnomResult where
  anomalies : List AnomRec
  anomaly_score : ℚ
  method : Option String
  total_data_points : ℕ
  anomaly_count : Option ℕ
deriving Repr, DecidableEq

/-- detect_anomalies: explicit insufficient-data result below 5 points;
otherwise merge the three detectors, sort by timestamp (stable), drop
records whose index was already seen, and score by the unique count over
the total, as a percentage rounded to one decimal. -/
def detectAnomalies (y : List ℚ) (tsF : ℕ → ℕ) (iso z ma : ℕ → Bool) : AnomResult :=
  if y.length < 5 then
    { anomalies := [], anomaly_score := 0, method := some "insufficient_data",
      total_data_points := y.length, anomaly_count := none }
  else
    let uniqueAnomalies := dedupByIdx (sortLe leTs (rawAnomalies y tsF iso z ma)) []
    let score : ℚ :=
      if y.length > 0 then ((uniqueAnomalies.length : ℚ) / (y.length : ℚ)) * 100 else 0
    { anomalies := uniqueAnomalies, anomaly_score := roundTo 1 score,
      method := none, total_data_points := y.length,
      anomaly_count := some uniqueAnomalies.length }

/-! ### Claim C6: insufficient data for training -/

/-- C6: with fewer history points than the minimum sample floor (10),
train_forecasting_model returns the False status after only logging a
warning — no exception, no dispatch to either training helper — and the
analyzer state (models, scalers, metadata, cached training data) for
every metric is returned unchanged. -/
theorem C6_insufficient_training_data (env : MLEnv) (st : MLState)
    (hist : List HistEntry) (metric : String)
    (h : hist.length < MIN_FORECAST_POINTS) :
    trainForecastingModel env st hist metric = (false, st) := by
  unfold trainForecastingModel
  rw [if_pos h]

/-- Witness for C6_insufficient_training_data: a 9-point history with an
existing model for the metric; the call returns False and the state is
untouched. -/
theorem C6_insufficient_training_data_witness :
    trainForecastingModel
      { newDataCount := 9, shouldFullRetrain := true,
        trainFull := fun st => (true, st), updateIncr := fun st => (true, st) }
      { models := fun _ => some 1, scalers := fun _ => some 2,
        model_metadata := fun _ => some 3, last_training_data := fun _ => some 4 }
      [0, 1, 2, 3, 4, 5, 6, 7, 8] "dora.lead_time.total_lead_time_hours"
      = (false,
         { models := fun _ => some 1, scalers := fun _ => some 2,
           model_metadata := fun _ => some 3, last_training_data := fun _ => some 4 }) :=
  C6_insufficient_training_data _ _ _ _ (by decide)

/-! ### Claim C7: anomaly merge, de-duplication and score -/

/-- Membership in an insertion step. -/
theorem mem_insertLe (le : α → α → Bool) (a x : α) (l : List α) :
    x ∈ insertLe le a l ↔ x = a ∨ x ∈ l := by
  induction l with
  | nil => simp [insertLe]
  | cons b l ih =>
    by_cases h : le a b = true
    · simp [insertLe, h]
    · simp only [insertLe, h, if_false, Bool.false_eq_true, List.mem_cons, ih]
      tauto

/-- Sorting preserves membership. -/
theorem mem_sortLe (le : α → α → Bool) (x : α) (l : List α) :
    x ∈ sortLe le l ↔ x ∈ l := by
  induction l with
  | nil => simp [sortLe]
  | cons a l ih =>
    rw [show sortLe le (a :: l) = insertLe le a (sortLe le l) from rfl,
      mem_insertLe, ih, List.mem_cons]

/-- Stability of the insertion step over a class of records sharing one
timestamp: inserting never reorders the p-selected records, because the
insertion point only passes records with strictly smaller timestamps. -/
theorem filter_insertLe_ts (p : AnomRec → Bool) (k : ℕ) (a : AnomRec) (l : List AnomRec)
    (hpa : p a = true → a.ts = k) (hpl : ∀ x ∈ l, p x = true → x.ts = k) :
    (insertLe leTs a l).filter p = if p a then a :: l.filter p else l.filter p := by
  induction l with
  | nil =>
    simp only [insertLe, List.filter_cons, List.filter_nil]
  | cons b l ih =>
    have hpb := hpl b (List.mem_cons_self _ _)
    have ihl := ih (fun x hx => hpl x (List.mem_cons_of_mem _ hx))
    by_cases hab : leTs a b = true
    · rw [show insertLe leTs a (b :: l) = a :: b :: l from by simp [insertLe, hab]]
      rw [List.filter_cons]
    · rw [show insertLe leTs a (b :: l) = b :: insertLe leTs a l from by
        simp [insertLe, hab]]
      by_cases hpa2 : p a = true
      · have hpbf : p b = false := by
          cases hqb : p b
          · rfl
          · exfalso
            have h1 : a.ts = k := hpa hpa2
            have h2 : b.ts = k := hpb hqb
            have h3 : ¬ (a.ts ≤ b.ts) := by simpa [leTs] using hab
            omega
        rw [List.filter_cons, List.filter_cons, hpbf]
        simp only [Bool.false_eq_true, if_false, ihl, hpa2, if_true]
      · have hpaf : p a = false := by
          cases hqa : p a
          · rfl
          · exact absurd hqa hpa2
        rw [List.filter_cons, List.filter_cons, ihl, hpaf]
        simp only [Bool.false_eq_true, if_false]

/-- Stability of the sort over a class of records sharing one timestamp:
the p-selected sublist is unchanged by sorting. -/
theorem filter_sortLe_ts (p : AnomRec → Bool) (k : ℕ) (l : List AnomRec)
    (hpl : ∀ x ∈ l, p x = true → x.ts = k) :
    (sortLe leTs l).filter p = l.filter p := by
  induction l with
  | nil => rfl
  | cons a l ih =>
    have hmem : ∀ x ∈ sortLe leTs l, p x = true → x.ts = k := fun x hx =>
      hpl x (List.mem_cons_of_mem _ ((mem_sortLe leTs x l).mp hx))
    rw [show sortLe leTs (a :: l) = insertLe leTs a (sortLe leTs l) from rfl]
    rw [filter_insertLe_ts p k a _ (hpl a (List.mem_cons_self _ _)) hmem]
    rw [ih (fun x hx => hpl x (List.mem_cons_of_mem _ hx))]
    rw [List.filter_cons]

/-- Every record a detector emits carries the timestamp of its index. -/
theorem mem_detRecords_ts (y : List ℚ) (tsF : ℕ → ℕ) (flag : ℕ → Bool) (meth : String) :
    ∀ r ∈ detRecords y tsF flag meth, r.ts = tsF r.idx := by
  intro r hr
  unfold detRecords at hr
  rw [List.mem_filterMap] at hr
  obtain ⟨j, _, hsome⟩ := hr
  by_cases hf : flag j = true
  · rw [if_pos hf] at hsome
    cases hsome
    rfl
  · rw [if_neg hf] at hsome
    cases hsome

/-- Every record of the merged list carries the timestamp of its index. -/
theorem mem_rawAnomalies_ts (y : List ℚ) (tsF : ℕ → ℕ) (iso z ma : ℕ → Bool) :
    ∀ r ∈ rawAnomalies y tsF iso z ma, r.ts = tsF r.idx := by
  intro r hr
  unfold rawAnomalies at hr
  rcases List.mem_append.mp hr with hr | hr
  · rcases List.mem_append.mp hr with hr | hr
    · exact mem_detRecords_ts y tsF iso _ r hr
    · exact mem_detRecords_ts y tsF z _ r hr
  · exact mem_detRecords_ts y tsF ma _ r hr

/-- The records of one detector at a fixed index: exactly one when the
index is in range and flagged, none otherwise. -/
theorem detRecords_filter (y : List ℚ) (tsF : ℕ → ℕ) (flag : ℕ → Bool) (meth : String) (i : ℕ) :
    (detRecords y tsF flag meth).filter (fun r => r.idx == i)
      = if i < y.length ∧ flag i = true
        then [⟨i, tsF i, y.getD i 0, meth⟩] else [] := by
  have hgen : ∀ l : List ℕ, l.Nodup →
      ((l.filterMap (fun j =>
          if flag j then some (⟨j, tsF j, y.getD j 0, meth⟩ : AnomRec) else none)).filter
        (fun r => r.idx == i))
      = if i ∈ l ∧ flag i = true then [⟨i, tsF i, y.getD i 0, meth⟩] else [] := by
    intro l
    induction l with
    | nil => simp
    | cons a l ih =>
      intro hnd
      have hal : a ∉ l := (List.nodup_cons.mp hnd).1
      have ihl := ih (List.nodup_cons.mp hnd).2
      rw [List.filterMap_cons]
      by_cases hf : flag a = true
      · rw [if_pos hf, List.filter_cons]
        by_cases hai : a = i
        · subst hai
          have hbeq : ((⟨a, tsF a, y.getD a 0, meth⟩ : AnomRec).idx == a) = true := by
            simp
          rw [hbeq]
          simp only [if_true]
          rw [ihl]
          have h1 : ¬ (a ∈ l ∧ flag a = true) := fun hc => hal hc.1
          rw [if_neg h1]
          have h2 : (a ∈ a :: l ∧ flag a = true) := ⟨List.mem_cons_self _ _, hf⟩
          rw [if_pos h2]
        · have hbeq : ((⟨a, tsF a, y.getD a 0, meth⟩ : AnomRec).idx == i) = false := by
            simp [hai]
          rw [hbeq]
          simp only [Bool.false_eq_true, if_false]
          rw [ihl]
          have h2 : (i ∈ a :: l ∧ flag i = true) ↔ (i ∈ l ∧ flag i = true) := by
            constructor
            · rintro ⟨hm, hfi⟩
              rcases List.mem_cons.mp hm with h | h
              · exact absurd h.symm hai
              · exact ⟨h, hfi⟩
            · rintro ⟨hm, hfi⟩
              exact ⟨List.mem_cons_of_mem _ hm, hfi⟩
          by_cases h3 : (i ∈ l ∧ flag i = true)
          · rw [if_pos h3, if_pos (h2.mpr h3)]
          · rw [if_neg h3, if_neg (fun hc => h3 (h2.mp hc))]
      · rw [if_neg hf, ihl]
        have h2 : (i ∈ a :: l ∧ flag i = true) ↔ (i ∈ l ∧ flag i = true) := by
          constructor
          · rintro ⟨hm, hfi⟩
            rcases List.mem_cons.mp hm with h | h
            · subst h; exact absurd hfi hf
            · exact ⟨h, hfi⟩
          · rintro ⟨hm, hfi⟩
            exact ⟨List.mem_cons_of_mem _ hm, hfi⟩
        by_cases h3 : (i ∈ l ∧ flag i = true)
        · rw [if_pos h3, if_pos (h2.mpr h3)]
        · rw [if_neg h3, if_neg (fun hc => h3 (h2.mp hc))]
  have := hgen (List.range y.length) (List.nodup_range y.length)
  unfold detRecords
  rw [this]
  simp [List.mem_range]

/-- The de-duplication loop keeps, per index, exactly the first record
with that index, and none for indices already seen. -/
theorem dedupByIdx_filter (i : ℕ) : ∀ (l : List AnomRec) (seen : List ℕ),
    (dedupByIdx l seen).filter (fun r => r.idx == i)
      = if i ∈ seen then [] else (l.filter (fun r => r.idx == i)).take 1 := by
  intro l
  induction l with
  | nil => intro seen; simp [dedupByIdx]
  | cons a l ih =>
    intro seen
    by_cases ha : a.idx ∈ seen
    · rw [show dedupByIdx (a :: l) seen = dedupByIdx l seen from by simp [dedupByIdx, ha]]
      rw [ih seen, List.filter_cons]
      by_cases hai : a.idx = i
      · subst hai
        simp [ha]
      · have : (a.idx == i) = false := by simp [hai]
        rw [this]
        simp
    · rw [show dedupByIdx (a :: l) seen = a :: dedupByIdx l (a.idx :: seen) from by
        simp [dedupByIdx, ha]]
      rw [List.filter_cons, List.filter_cons]
      by_cases hai : a.idx = i
      · subst hai
        rw [ih (a.idx :: seen)]
        have hmem : a.idx ∈ a.idx :: seen := List.mem_cons_self _ _
        simp [ha, hmem]
      · have hbeq : (a.idx == i) = false := by simp [hai]
        rw [hbeq, ih (a.idx :: seen)]
        have : (i ∈ a.idx :: seen) ↔ i ∈ seen := by
          simp [List.mem_cons, Ne.symm hai]
        simp [this]

/-- The de-duplicated list has pairwise distinct indices, none of them
previously seen. -/
theorem dedupByIdx_nodup : ∀ (l : List AnomRec) (seen : List ℕ),
    (((dedupByIdx l seen).map (fun r => r.idx)).Nodup) ∧
    (∀ r ∈ dedupByIdx l seen, r.idx ∉ seen) := by
  intro l
  induction l with
  | nil => intro seen; simp [dedupByIdx]
  | cons a l ih =>
    intro seen
    by_cases ha : a.idx ∈ seen
    · rw [show dedupByIdx (a :: l) seen = dedupByIdx l seen from by simp [dedupByIdx, ha]]
      exact ih seen
    · rw [show dedupByIdx (a :: l) seen = a :: dedupByIdx l (a.idx :: seen) from by
        simp [dedupByIdx, ha]]
      obtain ⟨h1, h2⟩ := ih (a.idx :: seen)
      refine ⟨?_, ?_⟩
      · rw [List.map_cons, List.nodup_cons]
        refine ⟨?_, h1⟩
        intro hmem
        rw [List.mem_map] at hmem
        obtain ⟨r, hr, hri⟩ := hmem
        exact (h2 r hr) (by rw [hri]; exact List.mem_cons_self _ _)
      · intro r hr
        rcases List.mem_cons.mp hr with h | h
        · rw [h]; exact ha
        · exact fun hc => (h2 r h) (List.mem_cons_of_mem _ hc)

/-- The main branch of detect_anomalies, spelled out. -/
theorem detectAnomalies_main (y : List ℚ) (tsF : ℕ → ℕ) (iso z ma : ℕ → Bool)
    (h : 5 ≤ y.length) :
    detectAnomalies y tsF iso z ma =
      { anomalies := dedupByIdx (sortLe leTs (rawAnomalies y tsF iso z ma)) [],
        anomaly_score := roundTo 1
          ((((dedupByIdx (sortLe leTs (rawAnomalies y tsF iso z ma)) []).length : ℚ)
            / (y.length : ℚ)) * 100),
        method := none, total_data_points := y.length,
        anomaly_count := some (dedupByIdx (sortLe leTs (rawAnomalies y tsF iso z ma)) []).length } := by
  unfold detectAnomalies
  rw [if_neg (by omega)]
  have hpos : y.length > 0 := by omega
  simp [hpos]

/-- C7: with at least 5 usable points, the returned anomaly list has at
most one record per index (pairwise distinct indices); for every index
the kept record is exactly the first record of the merged detector list
with that index — since all records of one index share the timestamp of
that point, the stable sort by timestamp preserves their detector order,
so the annotation is the first detector that flagged the index, an
isolation-forest record whenever that detector flagged it; and the score
is the unique flagged count over the total point count times 100,
rounded to one decimal. With fewer than 5 points the result is the
explicit insufficient-data dict with an empty list and score 0 — never
an exception. -/
theorem C7_anomaly_dedup (y : List ℚ) (tsF : ℕ → ℕ) (iso z ma : ℕ → Bool) :
    (y.length < 5 →
      detectAnomalies y tsF iso z ma =
        { anomalies := [], anomaly_score := 0, method := some "insufficient_data",
          total_data_points := y.length, anomaly_count := none }) ∧
    (5 ≤ y.length →
      (((detectAnomalies y tsF iso z ma).anomalies.map (fun r => r.idx)).Nodup ∧
       (∀ i : ℕ, (detectAnomalies y tsF iso z ma).anomalies.filter (fun r => r.idx == i)
          = ((rawAnomalies y tsF iso z ma).filter (fun r => r.idx == i)).take 1) ∧
       (∀ i : ℕ, i < y.length → iso i = true →
          (detectAnomalies y tsF iso z ma).anomalies.filter (fun r => r.idx == i)
            = [⟨i, tsF i, y.getD i 0, "isolation_forest"⟩]) ∧
       (detectAnomalies y tsF iso z ma).anomaly_score
          = roundTo 1 ((((detectAnomalies y tsF iso z ma).anomalies.length : ℚ)
              / (y.length : ℚ)) * 100))) := by
  constructor
  · intro h
    unfold detectAnomalies
    rw [if_pos h]
  · intro h5
    have hmain := detectAnomalies_main y tsF iso z ma h5
    have hfilter : ∀ i : ℕ,
        (detectAnomalies y tsF iso z ma).anomalies.filter (fun r => r.idx == i)
          = ((rawAnomalies y tsF iso z ma).filter (fun r => r.idx == i)).take 1 := by
      intro i
      rw [hmain]
      have hraw : ∀ x ∈ rawAnomalies y tsF iso z ma,
          (fun r => r.idx == i) x = true → x.ts = tsF i := by
        intro x hx hxi
        have hts := mem_rawAnomalies_ts y tsF iso z ma x hx
        have hxi2 : x.idx = i := by simpa using hxi
        rw [hts, hxi2]
      rw [dedupByIdx_filter i _ [], if_neg (List.not_mem_nil i)]
      rw [filter_sortLe_ts (fun r => r.idx == i) (tsF i) (rawAnomalies y tsF iso z ma) hraw]
    refine ⟨?_, hfilter, ?_, ?_⟩
    · rw [hmain]
      exact (dedupByIdx_nodup _ []).1
    · intro i hi hiso
      rw [hfilter i]
      unfold rawAnomalies
      rw [List.filter_append, List.filter_append]
      rw [detRecords_filter y tsF iso "isolation_forest" i, if_pos ⟨hi, hiso⟩]
      simp
    · rw [hmain]

/-- Witness for C7_anomaly_dedup: six points with the last flagged by
both the isolation-forest and z-score detectors; the merged result keeps
one record for index 5, annotated isolation_forest. -/
theorem C7_anomaly_dedup_witness :
    (((detectAnomalies [1, 2, 3, 4, 5, 100] id (fun i => i == 5) (fun i => i == 5)
        (fun _ => false)).anomalies.map (fun r => r.idx)).Nodup) ∧
    (detectAnomalies [1, 2, 3, 4, 5, 100] id (fun i => i == 5) (fun i => i == 5)
        (fun _ => false)).anomalies.filter (fun r => r.idx == 5)
      = [⟨5, 5, 100, "isolation_forest"⟩] := by
  refine ⟨?_, ?_⟩
  · exact ((C7_anomaly_dedup [1, 2, 3, 4, 5, 100] id (fun i => i == 5) (fun i => i == 5)
      (fun _ => false)).2 (by decide)).1
  · exact ((C7_anomaly_dedup [1, 2, 3, 4, 5, 100] id (fun i => i == 5) (fun i => i == 5)
      (fun _ => false)).2 (by decide)).2.2.1 5 (by decide) (by decide)

/-- C7 counterexample for the exact score formula: six points with one
flagged index give 1 / 6 x 100 = 16.666..., but the code returns the
value rounded to one decimal, 16.7, so the returned score differs from
the stated quotient. -/
theorem C7_score_rounding_counterexample :
    (detectAnomalies [1, 2, 3, 4, 5, 100] id (fun i => i == 5) (fun _ => false)
        (fun _ => false)).anomaly_score = 167 / 10 ∧
    (167 / 10 : ℚ) ≠ 1 / 6 * 100 := by
  have hmain := detectAnomalies_main [1, 2, 3, 4, 5, 100] id (fun i => i == 5)
    (fun _ => false) (fun _ => false) (by decide)
  constructor
  · rw [hmain]
    have hlen : (dedupByIdx (sortLe leTs (rawAnomalies [1, 2, 3, 4, 5, 100] id
        (fun i => i == 5) (fun _ => false) (fun _ => false))) []).length = 1 := by decide
    rw [hlen]
    norm_num [roundTo, round_eq]
  · norm_num

end GHMetrics
